import Mathlib

/-!
Shallow embedding of the trend-classification engine of
`src/tools/generate_suggestions.py` (repository rosematcha/ciphermaniac).

Modelling conventions:
- Python floats are modelled as exact rationals (`ℚ`).
- Python `datetime` values are modelled as `Int` day numbers (days since the
  Unix epoch, whose day 0 is a Thursday); `timedelta.days` between two such
  values is plain `Int` subtraction.
- Python dicts built by insertion are modelled as association lists
  (`List (String × _)`), updated in place by `upsert`.
- Python sets of card keys are modelled as first-occurrence-deduplicated
  lists (`dedupFirst`); set iteration order in CPython is not specified
  across processes, so this is one determinization of it.
- The on-disk archetype lookup (`find_archetype_for_card`, cached per run in
  `_archetype_cache`) is a run-constant pure map from a display name to an
  optional archetype label; it enters the embedding as a parameter
  `arch : String → Option String`.
- The recency weight `0.5 ** (days / 30)` of `_recency_weight` is real-valued;
  it enters the embedding as a parameter `rw : Int → ℚ` applied to the day
  difference, and `rwPow` below gives its exact value whenever the difference
  is a non-negative multiple of 30 days.
- `sorted`/`list.sort` (stable) are modelled by the structural stable
  insertion sort `pySorted`, and Python `round` by `pyRound`
  (round-half-to-even, as for floats whose values are exactly representable).
-/

/-- Python `sum` over a list of rationals (left fold from 0). -/
def qsum (l : List ℚ) : ℚ := l.foldl (· + ·) 0

/-- Python `sum` over a list of naturals. -/
def nsum (l : List ℕ) : ℕ := l.foldl (· + ·) 0

/-- Stable insertion step: place `a` before the first element `b` with
`le a b`.  Together with `pySorted` this models Python's stable `sorted`. -/
def insertLe {α : Type} (le : α → α → Bool) (a : α) : List α → List α
  | [] => [a]
  | b :: bs => if le a b then a :: b :: bs else b :: insertLe le a bs

/-- Stable insertion sort; models Python's `sorted(key=...)` / `.sort(key=...)`
when `le a b` decides "key of `a` ≤ key of `b`" in the lexicographic key
order used at the call site. -/
def pySorted {α : Type} (le : α → α → Bool) : List α → List α
  | [] => []
  | x :: xs => insertLe le x (pySorted le xs)

/-- Round half to even to an integer, as Python's `round` does on floats with
exactly representable values. -/
def roundHalfEven (x : ℚ) : ℤ :=
  let n := Rat.floor x
  let f := x - n
  if f < 1/2 then n
  else if (1 : ℚ)/2 < f then n + 1
  else if n % 2 = 0 then n else n + 1

/-- Python `round(x, d)` (half-to-even at the `d`-th decimal). -/
def pyRound (x : ℚ) (d : ℕ) : ℚ := (roundHalfEven (x * 10 ^ d) : ℚ) / 10 ^ d

/-- Association-list lookup, first match wins (a Python dict read). -/
def alist_get? {β : Type} (m : List (String × β)) (k : String) : Option β :=
  (m.find? (fun p => p.1 == k)).map Prod.snd

/-- Python `dict.get(k, 0.0)` on a percentage map. -/
def lookupQ (m : List (String × ℚ)) (k : String) : ℚ :=
  (alist_get? m k).getD 0

/-- Python dict assignment `m[k] = v`: replace the first binding of `k`
in place, or append a fresh binding (insertion order preserved). -/
def upsert {β : Type} (m : List (String × β)) (k : String) (v : β) :
    List (String × β) :=
  match m with
  | [] => [(k, v)]
  | p :: rest => if p.1 == k then (k, v) :: rest else p :: upsert rest k v

/-- Python `dict.setdefault(k, v)`. -/
def setdefault {β : Type} (m : List (String × β)) (k : String) (v : β) :
    List (String × β) :=
  match alist_get? m k with
  | some _ => m
  | none => m ++ [(k, v)]

/-- Truthiness of an optional Python string (`None` and `""` are falsy). -/
def isTruthyS (o : Option String) : Bool :=
  match o with
  | some s => !(s == "")
  | none => false

/-- Python `a or b` on optional strings. -/
def orS (a b : Option String) : Option String :=
  if isTruthyS a then a else b

/-- Python `a or d` when `a` is an optional string and `d` a default label
(as in `card_data.archetype or 'UNSPECIFIED'`). -/
def orDefault (a : Option String) (d : String) : String :=
  match a with
  | some s => if s == "" then d else s
  | none => d

/-- Counter read of a `defaultdict(int)`. -/
def getNat (m : List (String × ℕ)) (k : String) : ℕ :=
  (alist_get? m k).getD 0

/-- First-occurrence deduplication (models iterating a Python set/dict built
by insertion: each element kept once, at its first position). -/
def dedupFirst {α : Type} [BEq α] : List α → List α
  | [] => []
  | a :: as => a :: (dedupFirst as).filter (fun b => !(b == a))

/-!  Data model: `TournamentData` of `generate_suggestions.py`. -/

/-- `TournamentData` dataclass: one observation of the time series
(newest first in every list the scorers receive). -/
structure TournamentData where
  name : String
  date : Option Int
  pct_map : List (String × ℚ)
  format_name : Option String
  name_map : List (String × String)
  tournament_names : List String
deriving DecidableEq, Repr

/-- Placeholder observation (used only where the source code's own guards
make the read unreachable). -/
def emptyTournament : TournamentData :=
  { name := "", date := none, pct_map := [], format_name := none,
    name_map := [], tournament_names := [] }

/-- `tournament_data[idx].pct_map.get(key, 0.0)`. -/
def pctAt (td : List TournamentData) (idx : ℕ) (key : String) : ℚ :=
  lookupQ (((td.get? idx).getD emptyTournament).pct_map) key

/-- `tournament_data[idx].date`. -/
def dateAt (td : List TournamentData) (idx : ℕ) : Option Int :=
  ((td.get? idx).getD emptyTournament).date

/-!  Engine constants (module-level constants of the source). -/

def BASIC_ENERGY : List String :=
  ["Psychic Energy", "Fire Energy", "Lightning Energy", "Grass Energy",
   "Darkness Energy", "Metal Energy", "Fighting Energy", "Water Energy"]

def PEAK_LOOKBACK : ℕ := 999
def MIN_LEADER_APPEARANCE_PCT : ℚ := 0.6
def MIN_LEADER_AVG_PCT : ℚ := 4.0
def MIN_RISE_CURRENT_PCT : ℚ := 2.0
def MIN_RISE_DELTA_ABS : ℚ := 1.5
def MIN_RISE_DELTA_REL : ℚ := 1.25
def MIN_RISE_TOURNAMENTS : ℕ := 3
def MIN_CHOPPED_PEAK_PCT : ℚ := 6.0
def MIN_CHOPPED_DROP_ABS : ℚ := 5.0
def MIN_CHOPPED_DROP_REL : ℚ := 0.6
def MIN_SUSTAINED_PEAK_TOURNAMENTS : ℕ := 2
def MAX_CHOPPED_RECENT_PCT : ℚ := 2.0
def MAX_DAY2D_TOTAL_APPEARANCES : ℕ := 2
def MAX_DAY2D_PEAK_USAGE : ℚ := 1.5
def MAX_DAY2D_TOTAL_USAGE_SUM : ℚ := 3.0
def MIN_DAY2D_MIN_APPEARANCE : ℚ := 0.3
def MAX_DAY2D_RECENT_PCT : ℚ := 0.1
def MAX_DAY2D_MEANINGFUL_TOURNAMENTS : ℕ := 2
def MAX_PER_ARCHETYPE : ℕ := 2
def MIN_CANDIDATES : ℕ := 12
def MAX_CANDIDATES : ℕ := 18

/-- The exact value of `_recency_weight` (that is `0.5 ** (d / 30)`) at every
day difference `d` that is a non-negative multiple of 30; elsewhere the
source's value is irrational and this function is one rational stand-in.
Concrete runs below only ever apply it to non-negative multiples of 30. -/
def rwPow (d : Int) : ℚ := (1/2 : ℚ) ^ ((max d 0).toNat / 30)

/-!  `CardCanonicalizer` and the loader's `_extract_pct_map` (claim C8). -/

/-- `CardCanonicalizer` state after `_load`: the two mappings of the
synonym table. -/
structure CardCanonicalizer where
  synonyms : List (String × String)
  name_to_canonical : List (String × String)
deriving DecidableEq, Repr

/-- `CardCanonicalizer.canonicalize(uid, name)` (the `_cache` memoisation is
semantically transparent and omitted). -/
def CardCanonicalizer.canonicalize (c : CardCanonicalizer)
    (uid name : Option String) : Option String × Option String :=
  let canonical_uid0 : Option String :=
    if isTruthyS uid then
      some ((alist_get? c.synonyms (uid.getD "")).getD (uid.getD ""))
    else none
  let canonical_uid : Option String :=
    if !(isTruthyS canonical_uid0) && isTruthyS name then
      alist_get? c.name_to_canonical (name.getD "")
    else canonical_uid0
  let canonical_name : Option String :=
    if isTruthyS canonical_uid then
      some ((((canonical_uid.getD "").splitOn "::").headD ""))
    else if isTruthyS name then name
    else none
  let result_uid := orS canonical_uid (orS uid name)
  let result_name := orS canonical_name name
  (result_uid, result_name)

/-- `TournamentDataLoader._canonicalize`. -/
def loader_canonicalize (c? : Option CardCanonicalizer)
    (uid name : Option String) : Option String × Option String :=
  match c? with
  | none => (orS uid name, name)
  | some c => c.canonicalize uid name

/-- One item of a per-event `master.json` usage report (`pct` already parsed,
modelling `float(item.get('pct', 0.0) or 0.0)`). -/
structure MasterItem where
  uid : Option String
  name : Option String
  pct : ℚ
deriving DecidableEq, Repr

/-- The canonical key the loader files an item under, `none` when the item is
skipped (`if not key: continue`). -/
def canonKeyOf (c? : Option CardCanonicalizer) (item : MasterItem) :
    Option String :=
  let key := orS item.uid item.name
  if !(isTruthyS key) then none
  else
    let ck0 := (loader_canonicalize c? item.uid item.name).1
    let ck := if isTruthyS ck0 then ck0 else key
    some (ck.getD "")

/-- The canonical display name the loader pairs with an item. -/
def canonNameOf (c? : Option CardCanonicalizer) (item : MasterItem) :
    Option String :=
  (loader_canonicalize c? item.uid item.name).2

/-- `TournamentDataLoader._extract_pct_map`: fold the items into the clamped
percentage map and the display-name map. -/
def extract_pct_map (c? : Option CardCanonicalizer)
    (items : List MasterItem) : List (String × ℚ) × List (String × String) :=
  items.foldl
    (fun maps item =>
      match canonKeyOf c? item with
      | none => maps
      | some ck =>
        let pct_map := upsert maps.1 ck (min 100 (lookupQ maps.1 ck + item.pct))
        let name_map :=
          match canonNameOf c? item with
          | some cn =>
            if cn == "" then
              match item.name with
              | some dn => if dn == "" then maps.2 else setdefault maps.2 ck dn
              | none => maps.2
            else upsert maps.2 ck cn
          | none =>
            match item.name with
            | some dn => if dn == "" then maps.2 else setdefault maps.2 ck dn
            | none => maps.2
        (pct_map, name_map))
    ([], [])

/-!  Weekend grouping (claims C2; used by the pipeline). -/

/-- `_get_weekend_key`: the Saturday of the calendar week of day `d`.
Day 0 (1970-01-01) is a Thursday, so Python's `weekday()` is `(d + 3) % 7`
and `days_since_saturday = (weekday + 2) % 7 = (d + 5) % 7`. -/
def weekendKey (d : Int) : Int := d - ((d + 5) % 7)

/-- `_combine_tournament_data`: merge the observations of one weekend.
The combined display label elides the source's date formatting (nothing
downstream reads it). -/
def combine_tournament_data (ts : List TournamentData) : TournamentData :=
  match ts with
  | [] => emptyTournament
  | [t] => t
  | base :: _ =>
    let all_cards := dedupFirst (ts.flatMap (fun t => t.pct_map.map Prod.fst))
    let combined_pct_map := all_cards.map (fun card =>
      (card,
       let values := ts.map (fun t => lookupQ t.pct_map card)
       let non_zero_values := values.filter (fun v => decide (0 < v))
       if non_zero_values.isEmpty then (0 : ℚ)
       else qsum non_zero_values / (non_zero_values.length : ℚ)))
    let combined_name_map := all_cards.filterMap (fun card =>
      (ts.findSome? (fun t => alist_get? t.name_map card)).map
        (fun n => (card, n)))
    { name := String.append (toString ts.length) " regionals",
      date := base.date,
      pct_map := combined_pct_map,
      format_name := base.format_name,
      name_map := combined_name_map,
      tournament_names := ts.map (fun t => t.name) }

/-- `load_grouped_tournament_data` minus the disk reads: group the loaded
observations by weekend anchor (newest anchor first), then append the
undated ones in their original order. -/
def group_by_weekend (raw : List TournamentData) : List TournamentData :=
  let dated := raw.filter (fun t => t.date.isSome)
  let undated := raw.filter (fun t => !t.date.isSome)
  let keys := dedupFirst (dated.filterMap (fun t => t.date.map weekendKey))
  let sortedKeys := pySorted (fun a b => decide (b ≤ a)) keys
  (sortedKeys.map (fun k =>
    combine_tournament_data
      (dated.filter (fun t => (t.date.map weekendKey) == some k)))) ++ undated

/-!  Rotation filter (claim C3). -/

/-- `RotationFilter._normalize_rotation_prefix` (renamed to "family" here):
normalize dashes and `and`/`&`, take what precedes the first dash, strip. -/
def normalize_rotation_family (format_name : Option String) : Option String :=
  match format_name with
  | none => none
  | some s =>
    if s == "" then none
    else
      let normalized := ((s.replace "—" "-").replace "–" "-").replace " and " " & "
      let fam := ((normalized.splitOn "-").headD "").trim
      if fam == "" then none else some fam

/-- The head loop of `filter_by_current_rotation`: first non-null normalized
family label, scanning newest first. -/
def current_rotation_family : List TournamentData → Option String
  | [] => none
  | d :: rest =>
    match normalize_rotation_family d.format_name with
    | some fam => some fam
    | none => current_rotation_family rest

/-- `RotationFilter.filter_by_current_rotation`. -/
def filter_by_current_rotation (td : List TournamentData) :
    List TournamentData :=
  if td.isEmpty then td
  else
    match current_rotation_family td with
    | none => td
    | some current =>
      let filtered_events := td.filter (fun d =>
        let fam := normalize_rotation_family d.format_name
        fam == some current || fam == none)
      if 3 ≤ filtered_events.length then filtered_events else td

/-!  Shared scorer plumbing (`CardAnalyzer`). -/

/-- `CardAnalyzer._parse_card_uid`: set code and collector number from a
`Name::SET::NNN` composite key. -/
def parse_card_uid (uid : String) : Option String × Option String :=
  let parts := if uid == "" then [] else uid.splitOn "::"
  match parts with
  | _ :: p1 :: p2 :: _ =>
    if p1 == "" || p2 == "" then (none, none) else (some p1, some p2)
  | _ => (none, none)

/-- `CardAnalyzer._get_display_name`. -/
def get_display_name (key : String) : List TournamentData → String
  | [] => key
  | d :: rest =>
    match alist_get? d.name_map key with
    | some n => n
    | none => get_display_name key rest

/-- `CardAnalyzer._get_all_card_keys`.  The analyzer caches this set on first
use (`_all_cards_cache`), so one run computes it once — from the corpus the
first scorer receives — and every later scorer reuses it; the pipeline below
passes the shared list to all four scorers accordingly. -/
def all_card_keys (td : List TournamentData) : List String :=
  dedupFirst (td.flatMap (fun d => d.pct_map.map Prod.fst))

/-- The per-archetype capping loop shared by the Rising, Crashed and One-Offs
scorers: walk the ranked candidates, admit one when its archetype count is
below `cap` and the result is shorter than `max_limit`. -/
def cap_loop {α β : Type} (archOf : α → String) (emit : α → β)
    (cap max_limit : ℕ) :
    List α → List (String × ℕ) → ℕ → List β
  | [], _, _ => []
  | c :: rest, counts, reslen =>
    let a := archOf c
    if getNat counts a < cap ∧ reslen < max_limit then
      emit c ::
        cap_loop archOf emit cap max_limit rest
          (upsert counts a (getNat counts a + 1)) (reslen + 1)
    else cap_loop archOf emit cap max_limit rest counts reslen

/-!  `compute_consistent_leaders` (Leaders scorer). -/

/-- Intermediate per-card statistics record of the Leaders scorer. -/
structure LeaderStat where
  name : String
  uid : String
  avg_usage : ℚ
  avg_ranking : ℚ
  appearance_rate : ℚ
  top_5_rate : ℚ
  top_1_rate : ℚ
  leader_score : ℚ
  appeared_count : ℕ
deriving DecidableEq, Repr

/-- One Leaders output item (rounded fields, as serialized). -/
structure LeaderItem where
  name : String
  uid : String
  setCode : Option String
  number : Option String
  avg_usage : ℚ
  avg_ranking : ℚ
  top_5_rate : ℚ
  appearance_rate : ℚ
deriving DecidableEq, Repr

/-- Per-observation ranking map: cards with positive usage sorted by usage
descending (stable), 1-based ranks. -/
def tournament_ranking (d : TournamentData) : List (String × ℕ) :=
  let sorted_cards :=
    pySorted (fun a b => decide (b.2 ≤ a.2))
      (d.pct_map.filter (fun p => decide (0 < p.2)))
  (sorted_cards.enum).map (fun ip => (ip.2.1, ip.1 + 1))

/-- Sort key of the Leaders scorer:
`(-leader_score, avg_ranking, name)` ascending. -/
def leadersLe (a b : LeaderStat) : Bool :=
  if a.leader_score ≠ b.leader_score then decide (b.leader_score < a.leader_score)
  else if a.avg_ranking ≠ b.avg_ranking then decide (a.avg_ranking < b.avg_ranking)
  else decide (a.name ≤ b.name)

/-- One ranking read of the Leaders scorer: the card's rank in observation
`id.2` (at position `id.1`), `999` for an unranked card that appears, `0`
otherwise. -/
def rank_read (rankings : List (List (String × ℕ))) (key : String)
    (id : ℕ × TournamentData) : ℕ :=
  let usage := lookupQ id.2.pct_map key
  match alist_get? ((rankings.get? id.1).getD []) key with
  | some r => r
  | none => if 0 < usage then 999 else 0

/-- The per-card body of `compute_consistent_leaders` (everything inside the
`for key in card_keys` loop); `none` models `continue`. -/
def leader_stat_for (td : List TournamentData)
    (rankings : List (List (String × ℕ)))
    (min_appearance_pct min_avg_pct max_avg_rank : ℚ)
    (key : String) : Option LeaderStat :=
  let name := get_display_name key td
  if name ∈ BASIC_ENERGY then none else
  let total_tournaments := td.length
  let rks := (td.enum).map (rank_read rankings key)
  let usage_values := td.map (fun d => lookupQ d.pct_map key)
  let appeared_count := rks.countP (fun r => decide (0 < r))
  let appearance_rate : ℚ := (appeared_count : ℚ) / (total_tournaments : ℚ)
  if appearance_rate < min_appearance_pct then none else
  let avg_usage := qsum usage_values / (usage_values.length : ℚ)
  if avg_usage < min_avg_pct then none else
  let valid_rankings := rks.filter (fun r => decide (0 < r))
  if valid_rankings.isEmpty then none else
  let avg_ranking : ℚ := ((nsum valid_rankings : ℕ) : ℚ) / (valid_rankings.length : ℚ)
  if max_avg_rank < avg_ranking then none else
  let top_5_count := valid_rankings.countP (fun r => decide (r ≤ 5))
  let top_5_rate : ℚ := (top_5_count : ℚ) / (valid_rankings.length : ℚ)
  let top_1_count := valid_rankings.countP (fun r => decide (r = 1))
  let top_1_rate : ℚ := (top_1_count : ℚ) / (valid_rankings.length : ℚ)
  let leader_score := avg_usage * 10 + (11 - avg_ranking) * 8 +
    top_5_rate * 15 + top_1_rate * 10 + appearance_rate * 5
  some { name := name, uid := key, avg_usage := avg_usage,
         avg_ranking := avg_ranking, appearance_rate := appearance_rate,
         top_5_rate := top_5_rate, top_1_rate := top_1_rate,
         leader_score := leader_score, appeared_count := appeared_count }

/-- Serialize one Leaders stat into an output item. -/
def mkLeaderItem (s : LeaderStat) : LeaderItem :=
  let sn := parse_card_uid s.uid
  { name := s.name, uid := s.uid, setCode := sn.1, number := sn.2,
    avg_usage := pyRound s.avg_usage 1, avg_ranking := pyRound s.avg_ranking 1,
    top_5_rate := pyRound s.top_5_rate 2,
    appearance_rate := pyRound s.appearance_rate 2 }

/-- `CardAnalyzer.compute_consistent_leaders`. -/
def compute_consistent_leaders (td : List TournamentData) (keys : List String)
    (max_limit : ℕ) (min_appearance_pct min_avg_pct max_avg_rank : ℚ) :
    List LeaderItem :=
  if td.isEmpty then [] else
  let rankings := td.map tournament_ranking
  let stats := keys.filterMap
    (leader_stat_for td rankings min_appearance_pct min_avg_pct max_avg_rank)
  let sorted := pySorted leadersLe stats
  (sorted.take max_limit).map mkLeaderItem

/-!  `compute_on_the_rise` (Rising scorer, claim C4). -/

/-- Intermediate Rising candidate (the `delta_rel` field already carries the
`min(·, 10)` applied at candidate construction; the `float('inf')` emergence
case stores 10 there and uses factor 5 in the momentum, as in the source). -/
structure RiseCand where
  name : String
  uid : String
  setCode : Option String
  number : Option String
  momentum_score : ℚ
  latest : ℚ
  recent_avg : ℚ
  delta_abs : ℚ
  delta_rel : ℚ
  archetype : String
deriving DecidableEq, Repr

/-- One Rising output item. -/
structure RiseItem where
  name : String
  uid : String
  setCode : Option String
  number : Option String
  archetype : String
  current_usage : ℚ
  momentum_score : ℚ
  growth_factor : ℚ
deriving DecidableEq, Repr

/-- The per-card body of `compute_on_the_rise`; `none` models `continue`. -/
def rise_candidate (td : List TournamentData) (arch : String → Option String)
    (excl : List String) (key : String) : Option RiseCand :=
  let name := get_display_name key td
  if key ∈ excl ∨ name ∈ BASIC_ENERGY then none else
  let values := td.map (fun d => lookupQ d.pct_map key)
  let latest := values.headD 0
  if latest < MIN_RISE_CURRENT_PCT then none else
  let older_values := values.tail
  if ¬older_values.isEmpty ∧ older_values.all (fun v => decide (v ≤ 0)) then none else
  if older_values.length < 2 then none else
  let recent_past := if 2 ≤ older_values.length then older_values.take 2 else older_values
  let distant_past := if 2 < older_values.length then older_values.drop 2 else []
  let recent_avg := qsum recent_past / (recent_past.length : ℚ)
  let distant_avg :=
    if ¬distant_past.isEmpty then qsum distant_past / (distant_past.length : ℚ)
    else recent_avg
  let delta_abs := latest - recent_avg
  if delta_abs < MIN_RISE_DELTA_ABS then none else
  -- Quality Filter 3: the relative-growth gate; `none` models `continue`, a
  -- pair carries the momentum factor `min(delta_rel, 5)` and the stored
  -- `delta_rel` field `min(delta_rel, 10)` (10 for the `float('inf')`
  -- emergence branch, whose momentum factor is 5).
  let rel_gate : Option (ℚ × ℚ) :=
    if 0 < recent_avg then
      if latest / recent_avg < MIN_RISE_DELTA_REL then none
      else some (min (latest / recent_avg) 5, min (latest / recent_avg) 10)
    else
      if latest < MIN_RISE_CURRENT_PCT * 1.2 then none
      else some (5, 10)
  match rel_gate with
  | none => none
  | some fs =>
    let momentum0 := delta_abs * fs.1
    let momentum1 :=
      if ¬distant_past.isEmpty ∧ distant_avg < recent_avg then
        momentum0 * (1 + min ((recent_avg - distant_avg) / max distant_avg 1) 1)
      else momentum0
    let momentum2 :=
      if 2 ≤ recent_past.length ∧ 0 < recent_past.headD 0 - (recent_past.get? 1).getD 0 then
        momentum1 * 1.2
      else momentum1
    let sn := parse_card_uid key
    some { name := name, uid := key, setCode := sn.1, number := sn.2,
           momentum_score := momentum2, latest := latest,
           recent_avg := recent_avg, delta_abs := delta_abs,
           delta_rel := fs.2,
           archetype := orDefault (arch name) "UNSPECIFIED" }

/-- Sort key of the Rising scorer:
`(-momentum_score, -latest, name)` ascending. -/
def riseLe (a b : RiseCand) : Bool :=
  if a.momentum_score ≠ b.momentum_score then decide (b.momentum_score < a.momentum_score)
  else if a.latest ≠ b.latest then decide (b.latest < a.latest)
  else decide (a.name ≤ b.name)

/-- Serialize one Rising candidate into an output item. -/
def mkRiseItem (c : RiseCand) : RiseItem :=
  { name := c.name, uid := c.uid, setCode := c.setCode, number := c.number,
    archetype := c.archetype,
    current_usage := pyRound c.latest 1,
    momentum_score := pyRound c.momentum_score 2,
    growth_factor := pyRound c.delta_rel 1 }

/-- `CardAnalyzer.compute_on_the_rise`. -/
def compute_on_the_rise (td : List TournamentData) (keys : List String)
    (arch : String → Option String) (excl : List String)
    (max_limit cap_per_arch : ℕ) : List RiseItem :=
  if td.isEmpty ∨ td.length < MIN_RISE_TOURNAMENTS then [] else
  let candidates := keys.filterMap (rise_candidate td arch excl)
  let sorted := pySorted riseLe candidates
  cap_loop (fun c => c.archetype) mkRiseItem cap_per_arch max_limit sorted [] 0

/-!  `compute_chopped_and_washed` (Crashed scorer, claim C5). -/

/-- The best-peak record kept per Crashed candidate (`best_peak_info`). -/
structure PeakInfo where
  peak_pct : ℚ
  peak_tournaments : ℕ
  abs_drop : ℚ
  rel_drop : ℚ
  steepness : ℚ
deriving DecidableEq, Repr

/-- Intermediate Crashed candidate. -/
structure ChoppedCand where
  key : String
  name : String
  crash_score : ℚ
  latest : ℚ
  archetype : String
  setCode : Option String
  number : Option String
  info : PeakInfo
deriving DecidableEq, Repr

/-- One Crashed output item. -/
structure ChoppedItem where
  name : String
  uid : String
  setCode : Option String
  number : Option String
  archetype : String
  peak_usage : ℚ
  current_usage : ℚ
  drop_amount : ℚ
  crash_severity : ℚ
  sustained_peak : ℕ
deriving DecidableEq, Repr

/-- Shared tail of one iteration of the Crashed peak scan, taking the values
already read from the corpus: peak percentage, the usage values of the
sustain window (the observations just after the peak), and the peak date. -/
def chopped_step_core (now : Int) (rw : Int → ℚ) (latest : ℚ)
    (peak_start_idx : ℕ) (peak_pct : ℚ) (sustain_vals : List ℚ)
    (peak_date : Option Int) (acc : ℚ × Option PeakInfo) :
    ℚ × Option PeakInfo :=
  if peak_pct < MIN_CHOPPED_PEAK_PCT then acc else
  let sustained := sustain_vals.takeWhile
    (fun v => decide (MIN_CHOPPED_PEAK_PCT * 0.7 ≤ v))
  let sustained_tournaments := 1 + sustained.length
  let sustained_sum := peak_pct + qsum sustained
  if sustained_tournaments < MIN_SUSTAINED_PEAK_TOURNAMENTS then acc else
  let sustained_avg := sustained_sum / (sustained_tournaments : ℚ)
  let abs_drop := sustained_avg - latest
  if abs_drop < MIN_CHOPPED_DROP_ABS then acc else
  let rel_drop := abs_drop / sustained_avg
  if rel_drop < MIN_CHOPPED_DROP_REL then acc else
  let days_since_peak : Int :=
    match peak_date with
    | some pd => now - pd
    | none => (peak_start_idx : Int) * 7
  let peak_recency := rw days_since_peak
  let tournaments_to_fall := peak_start_idx
  let steepness_factor := abs_drop / ((max tournaments_to_fall 1 : ℕ) : ℚ)
  let crash_score0 := abs_drop * 2 + rel_drop * sustained_avg +
    steepness_factor * 3 + (sustained_tournaments : ℚ) * 2 + peak_recency * 5
  let crash_score := if latest ≤ 0 then crash_score0 * 1.5 else crash_score0
  if acc.1 < crash_score then
    (crash_score,
     some { peak_pct := sustained_avg, peak_tournaments := sustained_tournaments,
            abs_drop := abs_drop, rel_drop := rel_drop,
            steepness := steepness_factor })
  else acc

/-- The sustain-window index list of one peak-scan iteration:
`range(peak_start_idx + 1, min(len(td), peak_start_idx + 4))`. -/
def sustain_idxs (len peak_start_idx : ℕ) : List ℕ :=
  (List.range (min len (peak_start_idx + MIN_SUSTAINED_PEAK_TOURNAMENTS + 2))).drop
    (peak_start_idx + 1)

/-- One iteration of the Crashed peak scan (total reads). -/
def chopped_step (td : List TournamentData) (now : Int) (rw : Int → ℚ)
    (key : String) (latest : ℚ) (acc : ℚ × Option PeakInfo)
    (peak_start_idx : ℕ) : ℚ × Option PeakInfo :=
  let peak_pct := pctAt td peak_start_idx key
  let sustain_vals := (sustain_idxs td.length peak_start_idx).map
    (fun i => pctAt td i key)
  chopped_step_core now rw latest peak_start_idx peak_pct sustain_vals
    (dateAt td peak_start_idx) acc

/-- The peak-scan index list: `range(1, min(len(td), 1 + PEAK_LOOKBACK))`. -/
def peak_idxs (len : ℕ) : List ℕ :=
  (List.range (min len (1 + PEAK_LOOKBACK))).drop 1

/-- The per-card body of `compute_chopped_and_washed`; `none` models
`continue`. -/
def chopped_candidate (td : List TournamentData)
    (arch : String → Option String) (excl : List String) (now : Int)
    (rw : Int → ℚ) (key : String) : Option ChoppedCand :=
  let name := get_display_name key td
  if key ∈ excl ∨ name ∈ BASIC_ENERGY then none else
  let latest_pct := pctAt td 0 key
  let second_latest_pct := if 1 < td.length then pctAt td 1 key else 0
  if MAX_CHOPPED_RECENT_PCT < latest_pct ∨ MAX_CHOPPED_RECENT_PCT < second_latest_pct
  then none else
  let best := (peak_idxs td.length).foldl
    (chopped_step td now rw key latest_pct) (0, none)
  -- `if best_crash_score <= 0.0 or best_peak_info is None: continue`
  best.2.bind (fun info =>
    if best.1 ≤ 0 then none
    else
      let sn := parse_card_uid key
      some { key := key, name := name, crash_score := best.1,
             latest := latest_pct,
             archetype := orDefault (arch name) "UNSPECIFIED",
             setCode := sn.1, number := sn.2, info := info })

/-- Sort key of the Crashed scorer:
`(-crash_score, -abs_drop, name)` ascending. -/
def choppedLe (a b : ChoppedCand) : Bool :=
  if a.crash_score ≠ b.crash_score then decide (b.crash_score < a.crash_score)
  else if a.info.abs_drop ≠ b.info.abs_drop then decide (b.info.abs_drop < a.info.abs_drop)
  else decide (a.name ≤ b.name)

/-- Serialize one Crashed candidate into an output item. -/
def mkChoppedItem (c : ChoppedCand) : ChoppedItem :=
  { name := c.name, uid := c.key, setCode := c.setCode, number := c.number,
    archetype := c.archetype,
    peak_usage := pyRound c.info.peak_pct 1,
    current_usage := pyRound c.latest 1,
    drop_amount := pyRound c.info.abs_drop 1,
    crash_severity := pyRound c.info.rel_drop 2,
    sustained_peak := c.info.peak_tournaments }

/-- `CardAnalyzer.compute_chopped_and_washed`. -/
def compute_chopped_and_washed (td : List TournamentData) (keys : List String)
    (arch : String → Option String) (excl : List String) (now : Int)
    (rw : Int → ℚ) (max_limit cap_per_arch : ℕ) : List ChoppedItem :=
  if td.isEmpty then [] else
  let candidates := keys.filterMap (chopped_candidate td arch excl now rw)
  let sorted := pySorted choppedLe candidates
  cap_loop (fun c => c.archetype) mkChoppedItem cap_per_arch max_limit sorted [] 0

/-!  `compute_that_day2d` (One-Offs scorer, claims C6, C10). -/

/-- Intermediate One-Offs candidate. -/
structure Day2dCand where
  name : String
  uid : String
  setCode : Option String
  number : Option String
  archetype : String
  experimental_score : ℚ
  peak_usage : ℚ
  total_appearances : ℕ
  total_usage_sum : ℚ
  tournaments_since_peak : ℕ
  rarity_score : ℚ
  disappearance_score : ℚ
deriving DecidableEq, Repr

/-- One One-Offs output item. -/
structure Day2dItem where
  name : String
  uid : String
  setCode : Option String
  number : Option String
  archetype : String
  peak_usage : ℚ
  total_appearances : ℕ
  total_usage : ℚ
  tournaments_since_peak : ℕ
  experimental_score : ℚ
deriving DecidableEq, Repr

/-- Python `max(list)` on a nonempty list of rationals (callers guard
nonemptiness exactly where the source does). -/
def maxQ : List ℚ → ℚ
  | [] => 0
  | x :: xs => xs.foldl max x

/-- Python `list.index` (index of the first match; callers guarantee the
element occurs, as `all_usage.index(max_usage)` does). -/
def pyIndex {α : Type} (p : α → Bool) : List α → ℕ
  | [] => 0
  | a :: l => if p a then 0 else pyIndex p l + 1

/-- Python `list.index` with the `ValueError` case made explicit. -/
def pyIndex? {α : Type} (p : α → Bool) : List α → Option ℕ
  | [] => none
  | a :: l => if p a then some 0 else (pyIndex? p l).map (· + 1)

/-- Marquee archetype fragments of the One-Offs scorer. -/
def established_archetypes : List String :=
  ["Charizard Pidgeot", "Dragapult Dusknoir", "Terapagos Noctowl",
   "Gholdengo", "Gardevoir", "Roaring Moon"]

/-- Python `est in archetype` (substring containment) via `splitOn`: for a
nonempty pattern, `a.splitOn est` has length 1 iff `est` does not occur. -/
def containsFragment (a est : String) : Bool :=
  (a.splitOn est).length ≠ 1

/-- Tail of the One-Offs per-card body, after the appearance-count gates
(shared by the real scorer and the gate-free variant of claim C10). -/
def day2d_tail (extended : List TournamentData)
    (arch : String → Option String) (name key : String)
    (all_usage recent_usage : List ℚ) (max_usage : ℚ)
    (total_appearances : ℕ) (total_usage_sum : ℚ) (max_idx : ℕ) :
    Option Day2dCand :=
  let appearance_indices := (all_usage.enum).filterMap
    (fun iu => if MIN_DAY2D_MIN_APPEARANCE ≤ iu.2 then some iu.1 else none)
  let consecutive_streaks :=
    if 1 < appearance_indices.length then
      (appearance_indices.zip appearance_indices.tail).countP
        (fun p => decide (p.2 = p.1 + 1))
    else 0
  let isolation_bonus : ℚ := 1 - (consecutive_streaks : ℚ) * 0.3
  let gap_ok : Bool :=
    if 1 < appearance_indices.length then
      let gaps := (appearance_indices.zip appearance_indices.tail).map
        (fun p => p.2 - p.1)
      let avg_gap : ℚ :=
        if ¬gaps.isEmpty then ((nsum gaps : ℕ) : ℚ) / (gaps.length : ℚ) else 0
      decide (2 ≤ avg_gap)
    else true
  if ¬gap_ok then none else
  let rarity_score := (MAX_DAY2D_TOTAL_USAGE_SUM - total_usage_sum) / MAX_DAY2D_TOTAL_USAGE_SUM
  let recent_total := qsum recent_usage
  let disappearance_score := 1 - recent_total / max total_usage_sum 0.1
  let experimental_score0 :=
    rarity_score * 20 + disappearance_score * 15 + isolation_bonus * 10 +
    max_usage * 5 + ((extended.length - max_idx : ℕ) : ℚ) * 2
  let archetype? := arch name
  let boosted : Bool :=
    match archetype? with
    | some a => a ≠ "" ∧ established_archetypes.any (fun est => containsFragment a est)
    | none => false
  let experimental_score :=
    if boosted then experimental_score0 * 1.3 else experimental_score0
  let sn := parse_card_uid key
  some { name := name, uid := key, setCode := sn.1, number := sn.2,
         archetype := orDefault archetype? "UNSPECIFIED",
         experimental_score := experimental_score, peak_usage := max_usage,
         total_appearances := total_appearances,
         total_usage_sum := total_usage_sum,
         tournaments_since_peak := max_idx,
         rarity_score := rarity_score,
         disappearance_score := disappearance_score }

/-- The per-card body of `compute_that_day2d`; `none` models `continue`.
When `with_persistence_gate` is false, the later `non_zero_count > 4` gate
(Quality Filter 5, first branch) is removed — the variant of claim C10. -/
def day2d_candidate_gen (with_persistence_gate : Bool)
    (extended : List TournamentData) (arch : String → Option String)
    (excl : List String) (key : String) : Option Day2dCand :=
  let name := get_display_name key extended
  if key ∈ excl ∨ name ∈ BASIC_ENERGY then none else
  let all_usage := extended.map (fun d => lookupQ d.pct_map key)
  let recent_usage := all_usage.take 3
  if recent_usage.any (fun u => decide (MAX_DAY2D_RECENT_PCT < u)) then none else
  let max_usage := maxQ all_usage
  if MAX_DAY2D_PEAK_USAGE < max_usage then none else
  let meaningful_appearances := all_usage.filter
    (fun u => decide (MIN_DAY2D_MIN_APPEARANCE ≤ u))
  let total_appearances := (all_usage.filter (fun u => decide (0 < u))).length
  let meaningful_tournaments := meaningful_appearances.length
  if MAX_DAY2D_TOTAL_APPEARANCES < total_appearances then none else
  if MAX_DAY2D_MEANINGFUL_TOURNAMENTS < meaningful_tournaments then none else
  if meaningful_appearances.length = 0 then none else
  let total_usage_sum := qsum all_usage
  if MAX_DAY2D_TOTAL_USAGE_SUM < total_usage_sum then none else
  let max_idx := pyIndex (fun u => u == max_usage) all_usage
  if max_usage < MIN_DAY2D_MIN_APPEARANCE then none else
  let non_zero_count := all_usage.countP (fun u => decide (0 < u))
  if with_persistence_gate ∧ 4 < non_zero_count then none else
  day2d_tail extended arch name key all_usage recent_usage max_usage
    total_appearances total_usage_sum max_idx

/-- The per-card body of `compute_that_day2d`, as written in the source. -/
def day2d_candidate (extended : List TournamentData)
    (arch : String → Option String) (excl : List String) (key : String) :
    Option Day2dCand :=
  day2d_candidate_gen true extended arch excl key

/-- Sort key of the One-Offs scorer:
`(-experimental_score, -peak_usage, name)` ascending. -/
def day2dLe (a b : Day2dCand) : Bool :=
  if a.experimental_score ≠ b.experimental_score then
    decide (b.experimental_score < a.experimental_score)
  else if a.peak_usage ≠ b.peak_usage then decide (b.peak_usage < a.peak_usage)
  else decide (a.name ≤ b.name)

/-- Serialize one One-Offs candidate into an output item. -/
def mkDay2dItem (c : Day2dCand) : Day2dItem :=
  { name := c.name, uid := c.uid, setCode := c.setCode, number := c.number,
    archetype := c.archetype,
    peak_usage := pyRound c.peak_usage 1,
    total_appearances := c.total_appearances,
    total_usage := pyRound c.total_usage_sum 1,
    tournaments_since_peak := c.tournaments_since_peak,
    experimental_score := pyRound c.experimental_score 2 }

/-- `CardAnalyzer.compute_that_day2d`, taking the loaded-and-grouped extended
corpus directly (the loader's `_tournament_data_cache` makes the
`[:DAY2D_LOOKBACK_TOURNAMENTS]` slice inert on the second load: the first,
full-corpus load is cached and returned again, so the extended corpus the
scorer actually analyses is the full weekend-grouped corpus). -/
def compute_that_day2d (extended : List TournamentData) (keys : List String)
    (arch : String → Option String) (excl : List String)
    (max_limit cap_per_arch : ℕ) : List Day2dItem :=
  if extended.isEmpty then [] else
  let candidates := keys.filterMap (day2d_candidate extended arch excl)
  let sorted := pySorted day2dLe candidates
  cap_loop (fun c => c.archetype) mkDay2dItem cap_per_arch max_limit sorted [] 0

/-- `compute_that_day2d` with the redundant `non_zero_count > 4` persistence
gate removed, following the words of claim C10. -/
def compute_that_day2d_without_persistence_gate
    (extended : List TournamentData) (keys : List String)
    (arch : String → Option String) (excl : List String)
    (max_limit cap_per_arch : ℕ) : List Day2dItem :=
  if extended.isEmpty then [] else
  let candidates := keys.filterMap (day2d_candidate_gen false extended arch excl)
  let sorted := pySorted day2dLe candidates
  cap_loop (fun c => c.archetype) mkDay2dItem cap_per_arch max_limit sorted [] 0

/-!  Output assembler: `generate_suggestions` (claims C1, C6, C7). -/

/-- `c.get('uid') or c['name']` on a Leaders item. -/
def leaderKeyOf (c : LeaderItem) : String := if c.uid == "" then c.name else c.uid

/-- `c.get('uid') or c['name']` on a Rising item. -/
def riseKeyOf (c : RiseItem) : String := if c.uid == "" then c.name else c.uid

/-- `c.get('uid') or c['name']` on a Crashed item. -/
def choppedKeyOf (c : ChoppedItem) : String := if c.uid == "" then c.name else c.uid

/-- `item.get('uid') or item.get('name')` on a One-Offs item. -/
def day2dKeyOf (c : Day2dItem) : String := if c.uid == "" then c.name else c.uid

/-- The merge loop of the two loosest Leaders tiers: append pool items whose
`uid` is unseen until the quota `MIN_CANDIDATES` is reached. -/
def leaders_merge_fill (cur : List LeaderItem) : List LeaderItem → List LeaderItem
  | [] => cur
  | it :: rest =>
    if MIN_CANDIDATES ≤ cur.length then cur
    else if cur.any (fun l => l.uid == it.uid) then leaders_merge_fill cur rest
    else leaders_merge_fill (cur ++ [it]) rest

/-- The Leaders relaxation ladder of `generate_suggestions` (six widening
retries, the last two merging loose pools into the current list). -/
def leaders_ladder (td : List TournamentData) (keys : List String) :
    List LeaderItem :=
  let l1 := compute_consistent_leaders td keys MAX_CANDIDATES
    MIN_LEADER_APPEARANCE_PCT MIN_LEADER_AVG_PCT 10
  if MIN_CANDIDATES ≤ l1.length then l1 else
  let l2 := compute_consistent_leaders td keys MAX_CANDIDATES
    MIN_LEADER_APPEARANCE_PCT MIN_LEADER_AVG_PCT 12
  if MIN_CANDIDATES ≤ l2.length then l2 else
  let l3 := compute_consistent_leaders td keys MAX_CANDIDATES
    (max (MIN_LEADER_APPEARANCE_PCT - 0.1) 0.4) MIN_LEADER_AVG_PCT 12
  if MIN_CANDIDATES ≤ l3.length then l3 else
  let l4 := compute_consistent_leaders td keys MAX_CANDIDATES
    (max (MIN_LEADER_APPEARANCE_PCT - 0.1) 0.4) (max (MIN_LEADER_AVG_PCT - 0.5) 2.0) 13
  if MIN_CANDIDATES ≤ l4.length then l4 else
  let l5 := compute_consistent_leaders td keys MAX_CANDIDATES
    (max (MIN_LEADER_APPEARANCE_PCT - 0.2) 0.35) (max (MIN_LEADER_AVG_PCT - 1.0) 1.5) 15
  if MIN_CANDIDATES ≤ l5.length then l5 else
  let loose_pool := compute_consistent_leaders td keys MAX_CANDIDATES 0.25 0.8 20
  let l6 := leaders_merge_fill l5 loose_pool
  if MIN_CANDIDATES ≤ l6.length then l6 else
  let ultimate_pool := compute_consistent_leaders td keys MAX_CANDIDATES 0 0 (10 ^ 6)
  leaders_merge_fill l6 ultimate_pool

/-- The `for cap in (3, 4)` retry ladder shared by the three capped scorers:
retry with caps 3 then 4 while under quota, keeping the last attempt. -/
def cap_ladder {β : Type} (attempt : ℕ → List β) : List β :=
  let r2 := attempt MAX_PER_ARCHETYPE
  if MIN_CANDIDATES ≤ r2.length then r2 else
  let r3 := attempt 3
  if MIN_CANDIDATES ≤ r3.length then r3 else
  attempt 4

/-- Python `{(item.get('uid') or item.get('name')): item for item in pool}`
read at `sid`: the dict comprehension keeps the last binding of a key. -/
def pool_by_uid_get (pool : List Day2dItem) (sid : String) : Option Day2dItem :=
  (pool.filter (fun it => day2dKeyOf it == sid)).getLast?

/-- Resolve one selected id against the pool: by key through the `by_uid`
dict, then by display name (`next((it for it in pool if it.name == sid))`). -/
def day2d_resolve (pool : List Day2dItem) (sid : String) : Option Day2dItem :=
  match pool_by_uid_get pool sid with
  | some found => some found
  | none => pool.find? (fun it => it.name == sid)

/-- The selection loop of the One-Offs curation step: resolve each selected
id against the pool (by key, then by display name), keeping the first
occurrence of each key up to `MAX_CANDIDATES` items. -/
def day2d_select (pool : List Day2dItem) :
    List String → List Day2dItem × List String → List Day2dItem × List String
  | [], st => st
  | sid :: rest, st =>
    match day2d_resolve pool sid with
    | none => day2d_select pool rest st
    | some it =>
      let uid := day2dKeyOf it
      if uid ∈ st.2 ∨ MAX_CANDIDATES ≤ st.1.length then day2d_select pool rest st
      else day2d_select pool rest (st.1 ++ [it], st.2 ++ [uid])

/-- The top-up loop of the curation step: fill from the pool ranking until
the quota `MIN_CANDIDATES` is met or the pool is exhausted. -/
def day2d_topup (chosen : List Day2dItem) (seen : List String) :
    List Day2dItem → List Day2dItem
  | [] => chosen
  | it :: rest =>
    let uid := day2dKeyOf it
    if uid ∈ seen then day2d_topup chosen seen rest
    else
      let chosen2 := chosen ++ [it]
      if MIN_CANDIDATES ≤ chosen2.length then chosen2
      else day2d_topup chosen2 (seen ++ [uid]) rest

/-- The whole One-Offs curation step over the candidate pool, given the
already-parsed ordered selection ids. -/
def day2d_curate (pool : List Day2dItem) (selected_ids : List String) :
    List Day2dItem :=
  let st := day2d_select pool selected_ids ([], [])
  let chosen :=
    if st.1.length < MIN_CANDIDATES then day2d_topup st.1 st.2 pool else st.1
  chosen.take MAX_CANDIDATES

/-- The four final category item lists (and the One-Offs candidate pool). -/
structure RunOutput where
  leaders : List LeaderItem
  on_the_rise : List RiseItem
  chopped : List ChoppedItem
  that_day2d : List Day2dItem
  day2d_pool : List Day2dItem
deriving DecidableEq, Repr

/-- `generate_suggestions`: the full engine run on loaded observations.
`raw` is the loader output (newest first); `arch` the per-run archetype
lookup; `now`/`rw` the current time and recency-weight function of the
Crashed scorer; `day2d_pool_size` models `args.day2d_pool`; `selection` the
parsed curation list when the selection file exists.  As in the source, the
card-key set is computed once (from the rotation-filtered corpus, by the
first scorer) and shared by all four scorers, while the One-Offs scorer
analyses the unfiltered weekend-grouped corpus. -/
def generate_suggestions (raw : List TournamentData)
    (arch : String → Option String) (now : Int) (rw : Int → ℚ)
    (day2d_pool_size : ℕ) (selection : Option (List String)) : RunOutput :=
  let grouped := group_by_weekend raw
  let tournament_data := filter_by_current_rotation grouped
  let keys := all_card_keys tournament_data
  let leaders := leaders_ladder tournament_data keys
  let leader_keys := leaders.map leaderKeyOf
  let on_the_rise := cap_ladder (fun cap =>
    compute_on_the_rise tournament_data keys arch leader_keys MAX_CANDIDATES cap)
  let rise_keys := on_the_rise.map riseKeyOf
  let chopped := cap_ladder (fun cap =>
    compute_chopped_and_washed tournament_data keys arch
      (leader_keys ++ rise_keys) now rw MAX_CANDIDATES cap)
  let chopped_keys := chopped.map choppedKeyOf
  let excl3 := leader_keys ++ rise_keys ++ chopped_keys
  let that_day2d0 := cap_ladder (fun cap =>
    compute_that_day2d grouped keys arch excl3 MAX_CANDIDATES cap)
  let pool := compute_that_day2d grouped keys arch excl3
    (max day2d_pool_size MAX_CANDIDATES) (max (MAX_PER_ARCHETYPE * 5) 10)
  let that_day2d :=
    match selection with
    | some selected_ids =>
      if pool.isEmpty then that_day2d0 else day2d_curate pool selected_ids
    | none => that_day2d0
  { leaders := leaders.take MAX_CANDIDATES,
    on_the_rise := on_the_rise.take MAX_CANDIDATES,
    chopped := chopped.take MAX_CANDIDATES,
    that_day2d := that_day2d.take MAX_CANDIDATES,
    day2d_pool := pool }

/-!  Exception-explicit ("checked") scorer variants (claim C9).

Every Python subscript (`xs[i]`), `max` over a possibly-empty list and
`list.index` of the scorers is replaced by its partial counterpart in the
`Option` monad: `none` models the corresponding `IndexError`/`ValueError`
escaping the scorer.  The theorems for claim C9 show each checked scorer
returns `some` of its total counterpart on every input. -/

/-- Effectful `map` over `Option` (first failure aborts, as a raised
exception would). -/
def optionMapM {α β : Type} (f? : α → Option β) : List α → Option (List β)
  | [] => some []
  | a :: l =>
    match f? a, optionMapM f? l with
    | some b, some bs => some (b :: bs)
    | _, _ => none

/-- Effectful `foldl` over `Option`. -/
def optionFoldlM {σ α : Type} (f? : σ → α → Option σ) :
    σ → List α → Option σ
  | s, [] => some s
  | s, a :: l =>
    match f? s a with
    | some s2 => optionFoldlM f? s2 l
    | none => none

/-- Checked per-card body of the Leaders scorer (the one subscript is
`tournament_rankings[i]`). -/
def leader_stat_for_checked (td : List TournamentData)
    (rankings : List (List (String × ℕ)))
    (min_appearance_pct min_avg_pct max_avg_rank : ℚ)
    (key : String) : Option (Option LeaderStat) :=
  let name := get_display_name key td
  if name ∈ BASIC_ENERGY then some none else
  let total_tournaments := td.length
  match optionMapM (fun id =>
      (rankings.get? id.1).map (fun rmap =>
        let usage := lookupQ (id.2 : TournamentData).pct_map key
        match alist_get? rmap key with
        | some r => r
        | none => if 0 < usage then 999 else 0)) (td.enum) with
  | none => none
  | some rks =>
    let usage_values := td.map (fun d => lookupQ d.pct_map key)
    let appeared_count := rks.countP (fun r => decide (0 < r))
    let appearance_rate : ℚ := (appeared_count : ℚ) / (total_tournaments : ℚ)
    if appearance_rate < min_appearance_pct then some none else
    let avg_usage := qsum usage_values / (usage_values.length : ℚ)
    if avg_usage < min_avg_pct then some none else
    let valid_rankings := rks.filter (fun r => decide (0 < r))
    if valid_rankings.isEmpty then some none else
    let avg_ranking : ℚ := ((nsum valid_rankings : ℕ) : ℚ) / (valid_rankings.length : ℚ)
    if max_avg_rank < avg_ranking then some none else
    let top_5_count := valid_rankings.countP (fun r => decide (r ≤ 5))
    let top_5_rate : ℚ := (top_5_count : ℚ) / (valid_rankings.length : ℚ)
    let top_1_count := valid_rankings.countP (fun r => decide (r = 1))
    let top_1_rate : ℚ := (top_1_count : ℚ) / (valid_rankings.length : ℚ)
    let leader_score := avg_usage * 10 + (11 - avg_ranking) * 8 +
      top_5_rate * 15 + top_1_rate * 10 + appearance_rate * 5
    some (some { name := name, uid := key, avg_usage := avg_usage,
                 avg_ranking := avg_ranking, appearance_rate := appearance_rate,
                 top_5_rate := top_5_rate, top_1_rate := top_1_rate,
                 leader_score := leader_score, appeared_count := appeared_count })

/-- Checked `compute_consistent_leaders`. -/
def compute_consistent_leaders_checked (td : List TournamentData)
    (keys : List String) (max_limit : ℕ)
    (min_appearance_pct min_avg_pct max_avg_rank : ℚ) :
    Option (List LeaderItem) :=
  if td.isEmpty then some [] else
  let rankings := td.map tournament_ranking
  match optionMapM
      (leader_stat_for_checked td rankings min_appearance_pct min_avg_pct
        max_avg_rank) keys with
  | none => none
  | some stats? =>
    let stats := stats?.filterMap id
    let sorted := pySorted leadersLe stats
    some ((sorted.take max_limit).map mkLeaderItem)

/-- Checked per-card body of the Rising scorer (subscripts: `values[0]`,
`recent_past[0]`, `recent_past[1]`). -/
def rise_candidate_checked (td : List TournamentData)
    (arch : String → Option String) (excl : List String) (key : String) :
    Option (Option RiseCand) :=
  let name := get_display_name key td
  if key ∈ excl ∨ name ∈ BASIC_ENERGY then some none else
  let values := td.map (fun d => lookupQ d.pct_map key)
  match values.get? 0 with
  | none => none
  | some latest =>
    if latest < MIN_RISE_CURRENT_PCT then some none else
    let older_values := values.tail
    if ¬older_values.isEmpty ∧ older_values.all (fun v => decide (v ≤ 0)) then some none else
    if older_values.length < 2 then some none else
    let recent_past := if 2 ≤ older_values.length then older_values.take 2 else older_values
    let distant_past := if 2 < older_values.length then older_values.drop 2 else []
    let recent_avg := qsum recent_past / (recent_past.length : ℚ)
    let distant_avg :=
      if ¬distant_past.isEmpty then qsum distant_past / (distant_past.length : ℚ)
      else recent_avg
    let delta_abs := latest - recent_avg
    if delta_abs < MIN_RISE_DELTA_ABS then some none else
    let rel_gate : Option (ℚ × ℚ) :=
      if 0 < recent_avg then
        if latest / recent_avg < MIN_RISE_DELTA_REL then none
        else some (min (latest / recent_avg) 5, min (latest / recent_avg) 10)
      else
        if latest < MIN_RISE_CURRENT_PCT * 1.2 then none
        else some (5, 10)
    match rel_gate with
    | none => some none
    | some fs =>
      let momentum0 := delta_abs * fs.1
      let momentum1 :=
        if ¬distant_past.isEmpty ∧ distant_avg < recent_avg then
          momentum0 * (1 + min ((recent_avg - distant_avg) / max distant_avg 1) 1)
        else momentum0
      let momentum2? : Option ℚ :=
        if 2 ≤ recent_past.length then
          match recent_past.get? 0, recent_past.get? 1 with
          | some r0, some r1 =>
            some (if 0 < r0 - r1 then momentum1 * 1.2 else momentum1)
          | _, _ => none
        else some momentum1
      momentum2?.map (fun momentum2 =>
        let sn := parse_card_uid key
        some { name := name, uid := key, setCode := sn.1, number := sn.2,
               momentum_score := momentum2, latest := latest,
               recent_avg := recent_avg, delta_abs := delta_abs,
               delta_rel := fs.2,
               archetype := orDefault (arch name) "UNSPECIFIED" })

/-- Checked `compute_on_the_rise`. -/
def compute_on_the_rise_checked (td : List TournamentData)
    (keys : List String) (arch : String → Option String)
    (excl : List String) (max_limit cap_per_arch : ℕ) :
    Option (List RiseItem) :=
  if td.isEmpty ∨ td.length < MIN_RISE_TOURNAMENTS then some [] else
  match optionMapM (rise_candidate_checked td arch excl) keys with
  | none => none
  | some cands? =>
    let candidates := cands?.filterMap id
    let sorted := pySorted riseLe candidates
    some (cap_loop (fun c => c.archetype) mkRiseItem cap_per_arch max_limit sorted [] 0)

/-- Checked single iteration of the Crashed peak scan (subscripts:
`tournament_data[peak_start_idx]`, `tournament_data[sustain_idx]`). -/
def chopped_step_checked (td : List TournamentData) (now : Int)
    (rw : Int → ℚ) (key : String) (latest : ℚ) (acc : ℚ × Option PeakInfo)
    (peak_start_idx : ℕ) : Option (ℚ × Option PeakInfo) :=
  match td.get? peak_start_idx with
  | none => none
  | some obs =>
    let peak_pct := lookupQ obs.pct_map key
    match optionMapM (fun i => (td.get? i).map (fun o => lookupQ o.pct_map key))
        (sustain_idxs td.length peak_start_idx) with
    | none => none
    | some sustain_vals =>
      some (chopped_step_core now rw latest peak_start_idx peak_pct
        sustain_vals obs.date acc)

/-- Checked per-card body of the Crashed scorer (subscripts:
`tournament_data[0]` and the guarded `tournament_data[1]`). -/
def chopped_candidate_checked (td : List TournamentData)
    (arch : String → Option String) (excl : List String) (now : Int)
    (rw : Int → ℚ) (key : String) : Option (Option ChoppedCand) :=
  let name := get_display_name key td
  if key ∈ excl ∨ name ∈ BASIC_ENERGY then some none else
  match td.get? 0 with
  | none => none
  | some first =>
    let latest_pct := lookupQ first.pct_map key
    let second? : Option ℚ :=
      if 1 < td.length then (td.get? 1).map (fun o => lookupQ o.pct_map key)
      else some 0
    match second? with
    | none => none
    | some second_latest_pct =>
      if MAX_CHOPPED_RECENT_PCT < latest_pct ∨ MAX_CHOPPED_RECENT_PCT < second_latest_pct
      then some none else
      match optionFoldlM (fun acc idx => chopped_step_checked td now rw key latest_pct acc idx)
          (0, none) (peak_idxs td.length) with
      | none => none
      | some best =>
        some (best.2.bind (fun info =>
          if best.1 ≤ 0 then none
          else
            let sn := parse_card_uid key
            some { key := key, name := name, crash_score := best.1,
                   latest := latest_pct,
                   archetype := orDefault (arch name) "UNSPECIFIED",
                   setCode := sn.1, number := sn.2, info := info }))

/-- Checked `compute_chopped_and_washed`. -/
def compute_chopped_and_washed_checked (td : List TournamentData)
    (keys : List String) (arch : String → Option String)
    (excl : List String) (now : Int) (rw : Int → ℚ)
    (max_limit cap_per_arch : ℕ) : Option (List ChoppedItem) :=
  if td.isEmpty then some [] else
  match optionMapM (chopped_candidate_checked td arch excl now rw) keys with
  | none => none
  | some cands? =>
    let candidates := cands?.filterMap id
    let sorted := pySorted choppedLe candidates
    some (cap_loop (fun c => c.archetype) mkChoppedItem cap_per_arch max_limit sorted [] 0)

/-- Checked per-card body of the One-Offs scorer (partial operations:
`max(all_usage)` and `all_usage.index(max_usage)`). -/
def day2d_candidate_checked (extended : List TournamentData)
    (arch : String → Option String) (excl : List String) (key : String) :
    Option (Option Day2dCand) :=
  let name := get_display_name key extended
  if key ∈ excl ∨ name ∈ BASIC_ENERGY then some none else
  let all_usage := extended.map (fun d => lookupQ d.pct_map key)
  let recent_usage := all_usage.take 3
  if recent_usage.any (fun u => decide (MAX_DAY2D_RECENT_PCT < u)) then some none else
  match all_usage with
  | [] => none
  | u0 :: urest =>
    let max_usage := urest.foldl max u0
    if MAX_DAY2D_PEAK_USAGE < max_usage then some none else
    let meaningful_appearances := all_usage.filter
      (fun u => decide (MIN_DAY2D_MIN_APPEARANCE ≤ u))
    let total_appearances := (all_usage.filter (fun u => decide (0 < u))).length
    let meaningful_tournaments := meaningful_appearances.length
    if MAX_DAY2D_TOTAL_APPEARANCES < total_appearances then some none else
    if MAX_DAY2D_MEANINGFUL_TOURNAMENTS < meaningful_tournaments then some none else
    if meaningful_appearances.length = 0 then some none else
    let total_usage_sum := qsum all_usage
    if MAX_DAY2D_TOTAL_USAGE_SUM < total_usage_sum then some none else
    match pyIndex? (fun u => u == max_usage) all_usage with
    | none => none
    | some max_idx =>
      if max_usage < MIN_DAY2D_MIN_APPEARANCE then some none else
      let non_zero_count := all_usage.countP (fun u => decide (0 < u))
      if 4 < non_zero_count then some none else
      some (day2d_tail extended arch name key all_usage recent_usage max_usage
        total_appearances total_usage_sum max_idx)

/-- Checked `compute_that_day2d`. -/
def compute_that_day2d_checked (extended : List TournamentData)
    (keys : List String) (arch : String → Option String)
    (excl : List String) (max_limit cap_per_arch : ℕ) :
    Option (List Day2dItem) :=
  if extended.isEmpty then some [] else
  match optionMapM (day2d_candidate_checked extended arch excl) keys with
  | none => none
  | some cands? =>
    let candidates := cands?.filterMap id
    let sorted := pySorted day2dLe candidates
    some (cap_loop (fun c => c.archetype) mkDay2dItem cap_per_arch max_limit sorted [] 0)

/-!  Concrete corpora used by the witnesses and counterexamples below. -/

/-- An archetype lookup that finds nothing (no `decks.json` hit). -/
def archNone : String → Option String := fun _ => none

/-- Two same-weekend observations (day 2 is a Saturday, day 3 the Sunday of
the same weekend) with usages `{A: 10, B: 0}` and `{A: 20, B: 5}`. -/
def c2a : TournamentData :=
  { name := "e1", date := some 2, pct_map := [("A", 10), ("B", 0)],
    format_name := none, name_map := [], tournament_names := ["e1"] }

def c2b : TournamentData :=
  { name := "e2", date := some 3, pct_map := [("A", 20), ("B", 5)],
    format_name := none, name_map := [], tournament_names := ["e2"] }

def exC2 : List TournamentData := [c2a, c2b]

/-- An observation carrying only a format label. -/
def mkC3 (fmt : Option String) : TournamentData :=
  { name := "t", date := none, pct_map := [], format_name := fmt,
    name_map := [], tournament_names := ["t"] }

/-- Two current-rotation events, one unlabeled event, one event from another
rotation: exactly 2 events carry the current rotation label. -/
def exC3 : List TournamentData :=
  [mkC3 (some "SV"), mkC3 (some "SV"), mkC3 none, mkC3 (some "XY")]

/-- One observation of the Rising scenario corpus. -/
def obsC4 (v : ℚ) : TournamentData :=
  { name := "t", date := none, pct_map := [("RiseK", v)],
    format_name := none, name_map := [("RiseK", "Rise Tech")],
    tournament_names := ["t"] }

/-- Newest-to-oldest usage `[9, 2, 1.5, 1]` for the card `RiseK`. -/
def corpusC4 : List TournamentData := [obsC4 9, obsC4 2, obsC4 1.5, obsC4 1]

/-- One observation of the Crashed scenario corpus. -/
def obsC5 (v : ℚ) : TournamentData :=
  { name := "t", date := none, pct_map := [("CrashK", v)],
    format_name := none, name_map := [("CrashK", "Crash Tech")],
    tournament_names := ["t"] }

/-- Newest-to-oldest usage `[0, 1, 18, 20, 22]` for the card `CrashK`. -/
def corpusC5 : List TournamentData :=
  [obsC5 0, obsC5 1, obsC5 18, obsC5 20, obsC5 22]

/-- Twelve staple cards `L0..L11` at 50%..39% (they fill the Leaders quota,
keeping the loose Leaders tiers from swallowing every other card). -/
def stapleMapC6 : List (String × ℚ) :=
  (List.range 12).map (fun i => (String.append "L" (toString i), (50 - (i : ℚ))))

/-- Five one-off cards `X0..X4` at 1%. -/
def xMapC6 : List (String × ℚ) :=
  (List.range 5).map (fun i => (String.append "X" (toString i), 1))

def obsC6 (withX : Bool) : TournamentData :=
  { name := "e", date := none,
    pct_map := stapleMapC6 ++ (if withX then xMapC6 else []),
    format_name := none, name_map := [], tournament_names := ["e"] }

/-- Six observations; `X0..X4` appear only in the fourth-newest one. -/
def rawC6 : List TournamentData :=
  [obsC6 false, obsC6 false, obsC6 false, obsC6 true, obsC6 false, obsC6 false]

/-- A curated selection picking all five one-offs. -/
def selC6 : List String := (List.range 5).map (fun i => String.append "X" (toString i))

/-- An archetype lookup attributing every card to the same archetype. -/
def archA : String → Option String := fun _ => some "ArchA"

/-- One observation of the determinism corpus: dated, the twelve staples,
plus the crashed cards `Xcard`/`Ycard`. -/
def obsC7 (d : Int) (x y : ℚ) : TournamentData :=
  { name := "t", date := some d,
    pct_map := stapleMapC6 ++ [("Xcard", x), ("Ycard", y)],
    format_name := none, name_map := [], tournament_names := ["t"] }

/-- `Ycard` peak height, chosen so its date-free crash-score part is 51. -/
def hC7 : ℚ := 188/15

/-- Six dated observations (distinct weekends; day differences from the two
`now` values used below are multiples of 30, where `rwPow` is exact).
`Xcard` crashed from a recent peak, `Ycard` from a 120-day-older one. -/
def rawC7 : List TournamentData :=
  [obsC7 137 0 0, obsC7 130 0 0, obsC7 121 10 0, obsC7 114 10 0,
   obsC7 1 0 hC7, obsC7 (-6) 0 hC7]

/-- A synonym table mapping the reprint `Aold::S::1` to `A::S::1`. -/
def canonC8 : CardCanonicalizer :=
  { synonyms := [("Aold::S::1", "A::S::1")], name_to_canonical := [] }

/-- Three usage-report items: two prints of the same card at 60% each (their
sum clamps to 100) and one name-keyed card at 5%. -/
def itemsC8 : List MasterItem :=
  [{ uid := some "A::S::1", name := some "A", pct := 60 },
   { uid := some "Aold::S::1", name := some "A", pct := 60 },
   { uid := none, name := some "B", pct := 5 }]

/-- The non-zero-average merge formula of claim C2 (the value the spec says
the merged observation assigns to each card). -/
def nonZeroAvg (ts : List TournamentData) (card : String) : ℚ :=
  let values := ts.map (fun t => lookupQ t.pct_map card)
  let nz := values.filter (fun v => decide (0 < v))
  if nz.isEmpty then 0 else qsum nz / (nz.length : ℚ)

/-- Per-archetype item count of a final category list. -/
def archCountRise (l : List RiseItem) (a : String) : ℕ :=
  l.countP (fun it => it.archetype == a)

def archCountChopped (l : List ChoppedItem) (a : String) : ℕ :=
  l.countP (fun it => it.archetype == a)

def archCountDay2d (l : List Day2dItem) (a : String) : ℕ :=
  l.countP (fun it => it.archetype == a)

/-!  Generic lemmas about the embedding's list plumbing. -/

theorem mem_dedupFirst {α : Type} [BEq α] [LawfulBEq α] {a : α} :
    ∀ {l : List α}, a ∈ dedupFirst l ↔ a ∈ l
  | [] => Iff.rfl
  | b :: t => by
    by_cases hab : a = b
    · subst hab; simp [dedupFirst]
    · simp [dedupFirst, List.mem_filter, mem_dedupFirst (l := t), hab]

theorem nodup_dedupFirst {α : Type} [BEq α] [LawfulBEq α] :
    ∀ (l : List α), (dedupFirst l).Nodup
  | [] => List.nodup_nil
  | b :: t => by
    simp only [dedupFirst, List.nodup_cons]
    refine ⟨fun hmem => ?_, ?_⟩
    · have h := List.mem_filter.mp hmem
      simp at h
    · exact List.Nodup.sublist (List.filter_sublist _) (nodup_dedupFirst t)

theorem insertLe_perm {α : Type} (le : α → α → Bool) (a : α) :
    ∀ (l : List α), (insertLe le a l).Perm (a :: l)
  | [] => List.Perm.refl _
  | b :: bs => by
    simp only [insertLe]
    split
    · exact List.Perm.refl _
    · exact ((insertLe_perm le a bs).cons b).trans (List.Perm.swap a b bs)

theorem pySorted_perm {α : Type} (le : α → α → Bool) :
    ∀ (l : List α), (pySorted le l).Perm l
  | [] => List.Perm.refl _
  | x :: xs =>
    (insertLe_perm le x (pySorted le xs)).trans ((pySorted_perm le xs).cons x)

theorem mem_pySorted {α : Type} (le : α → α → Bool) {l : List α} {a : α} :
    a ∈ pySorted le l ↔ a ∈ l :=
  (pySorted_perm le l).mem_iff

theorem alist_get?_cons {β : Type} (p : String × β) (rest : List (String × β))
    (k : String) :
    alist_get? (p :: rest) k =
      if p.1 == k then some p.2 else alist_get? rest k := by
  by_cases h : (p.1 == k) = true
  · simp [alist_get?, h]
  · simp [alist_get?, h]

theorem countP_cons_pos {α : Type} (p : α → Bool) (a : α) (l : List α)
    (h : p a = true) : (a :: l).countP p = l.countP p + 1 := by
  simp [h]

theorem countP_cons_neg {α : Type} (p : α → Bool) (a : α) (l : List α)
    (h : p a = false) : (a :: l).countP p = l.countP p := by
  simp [h]

theorem alist_get?_upsert_self {β : Type} :
    ∀ (m : List (String × β)) (k : String) (v : β),
      alist_get? (upsert m k v) k = some v
  | [], k, v => by simp [upsert, alist_get?]
  | p :: rest, k, v => by
    by_cases hpk : p.1 = k
    · subst hpk
      simp only [upsert, beq_self_eq_true, if_pos]
      rw [alist_get?_cons]
      simp
    · have hb : (p.1 == k) = false := beq_eq_false_iff_ne.mpr hpk
      simp only [upsert, hb, Bool.false_eq_true, if_false]
      rw [alist_get?_cons, if_neg (by simp [hb]), alist_get?_upsert_self rest k v]

theorem alist_get?_upsert_other {β : Type} :
    ∀ (m : List (String × β)) (k k2 : String) (v : β), k ≠ k2 →
      alist_get? (upsert m k v) k2 = alist_get? m k2
  | [], k, k2, v, h => by
    have hb : (k == k2) = false := beq_eq_false_iff_ne.mpr h
    simp [upsert, alist_get?, hb]
  | p :: rest, k, k2, v, h => by
    by_cases hpk : p.1 = k
    · subst hpk
      simp only [upsert, beq_self_eq_true, if_pos]
      rw [alist_get?_cons, alist_get?_cons]
      simp [h]
    · have hb : (p.1 == k) = false := beq_eq_false_iff_ne.mpr hpk
      simp only [upsert, hb, Bool.false_eq_true, if_false]
      rw [alist_get?_cons, alist_get?_cons, alist_get?_upsert_other rest k k2 v h]

theorem getNat_upsert_self (m : List (String × ℕ)) (k : String) (v : ℕ) :
    getNat (upsert m k v) k = v := by
  simp [getNat, alist_get?_upsert_self]

theorem getNat_upsert_other (m : List (String × ℕ)) (k k2 : String) (v : ℕ)
    (h : k ≠ k2) : getNat (upsert m k v) k2 = getNat m k2 := by
  simp [getNat, alist_get?_upsert_other m k k2 v h]

theorem filterMap_congr_mem {α β : Type} {f g : α → Option β} :
    ∀ {l : List α}, (∀ a ∈ l, f a = g a) → l.filterMap f = l.filterMap g
  | [], _ => rfl
  | a :: l, h => by
    have hrec := filterMap_congr_mem (l := l)
      (fun x hx => h x (List.mem_cons_of_mem a hx))
    simp only [List.filterMap_cons, h a (List.mem_cons_self a l), hrec]

theorem cap_loop_mem {α β : Type} (archOf : α → String) (emit : α → β)
    (cap maxl : ℕ) :
    ∀ (l : List α) (counts : List (String × ℕ)) (n : ℕ) (b : β),
      b ∈ cap_loop archOf emit cap maxl l counts n → ∃ c ∈ l, b = emit c
  | [], counts, n, b, h => by simp [cap_loop] at h
  | c :: rest, counts, n, b, h => by
    simp only [cap_loop] at h
    split at h
    · rcases List.mem_cons.mp h with h | h
      · exact ⟨c, List.mem_cons_self c rest, h⟩
      · obtain ⟨c2, hc2, he⟩ := cap_loop_mem archOf emit cap maxl rest _ _ b h
        exact ⟨c2, List.mem_cons_of_mem c hc2, he⟩
    · obtain ⟨c2, hc2, he⟩ := cap_loop_mem archOf emit cap maxl rest _ _ b h
      exact ⟨c2, List.mem_cons_of_mem c hc2, he⟩

theorem cap_loop_all {α β : Type} (archOf : α → String) (emit : α → β)
    (cap maxl : ℕ) :
    ∀ (l : List α) (counts : List (String × ℕ)) (n : ℕ),
      (∀ a, getNat counts a + l.countP (fun c => archOf c == a) ≤ cap) →
      n + l.length ≤ maxl →
      cap_loop archOf emit cap maxl l counts n = l.map emit
  | [], counts, n, _, _ => by simp [cap_loop]
  | c :: rest, counts, n, hcap, hlen => by
    have hc := hcap (archOf c)
    rw [countP_cons_pos _ _ _ (by simp)] at hc
    have hcnt : getNat counts (archOf c) < cap := by omega
    have hn : n < maxl := by
      simp only [List.length_cons] at hlen; omega
    have hcap2 : ∀ a, getNat (upsert counts (archOf c) (getNat counts (archOf c) + 1)) a
        + rest.countP (fun c2 => archOf c2 == a) ≤ cap := by
      intro a
      by_cases ha : archOf c = a
      · subst ha
        rw [getNat_upsert_self]
        omega
      · rw [getNat_upsert_other _ _ _ _ ha]
        have h2 := hcap a
        rw [countP_cons_neg _ _ _ (by simp [ha])] at h2
        omega
    have hlen2 : n + 1 + rest.length ≤ maxl := by
      simp only [List.length_cons] at hlen; omega
    simp only [cap_loop, if_pos (And.intro hcnt hn), List.map_cons]
    rw [cap_loop_all archOf emit cap maxl rest _ _ hcap2 hlen2]

theorem cap_loop_arch_bound {α β : Type} (archOf : α → String) (emit : α → β)
    (archOfB : β → String) (hpres : ∀ c, archOfB (emit c) = archOf c)
    (cap maxl : ℕ) :
    ∀ (l : List α) (counts : List (String × ℕ)) (n : ℕ) (a : String),
      getNat counts a ≤ cap →
      (cap_loop archOf emit cap maxl l counts n).countP
          (fun b => archOfB b == a) + getNat counts a ≤ cap
  | [], counts, n, a, hle => by simpa [cap_loop] using hle
  | c :: rest, counts, n, a, hle => by
    simp only [cap_loop]
    split
    · rename_i hcond
      obtain ⟨hc1, hc2⟩ := hcond
      by_cases ha : archOf c = a
      · subst ha
        rw [countP_cons_pos _ _ _ (by simp [hpres])]
        have hup : getNat (upsert counts (archOf c) (getNat counts (archOf c) + 1)) (archOf c)
            = getNat counts (archOf c) + 1 :=
          getNat_upsert_self counts (archOf c) (getNat counts (archOf c) + 1)
        have hrec := cap_loop_arch_bound archOf emit archOfB hpres cap maxl rest
          (upsert counts (archOf c) (getNat counts (archOf c) + 1)) (n + 1) (archOf c)
          (by rw [hup]; omega)
        rw [hup] at hrec
        omega
      · rw [countP_cons_neg _ _ _ (by simp [hpres, ha])]
        have hup : getNat (upsert counts (archOf c) (getNat counts (archOf c) + 1)) a
            = getNat counts a := getNat_upsert_other _ _ _ _ ha
        have hrec := cap_loop_arch_bound archOf emit archOfB hpres cap maxl rest
          (upsert counts (archOf c) (getNat counts (archOf c) + 1)) (n + 1) a
          (by rw [hup]; exact hle)
        rwa [hup] at hrec
    · exact cap_loop_arch_bound archOf emit archOfB hpres cap maxl rest counts n a hle

theorem optionMapM_eq_map {α β : Type} {f? : α → Option β} {f : α → β} :
    ∀ {l : List α}, (∀ a ∈ l, f? a = some (f a)) →
      optionMapM f? l = some (l.map f)
  | [], _ => rfl
  | a :: l, h => by
    have hrec := optionMapM_eq_map (l := l)
      (fun x hx => h x (List.mem_cons_of_mem a hx))
    simp [optionMapM, h a (List.mem_cons_self a l), hrec]

theorem optionFoldlM_eq_foldl {σ α : Type} {f? : σ → α → Option σ} {f : σ → α → σ} :
    ∀ {l : List α} {s : σ}, (∀ s2 a, a ∈ l → f? s2 a = some (f s2 a)) →
      optionFoldlM f? s l = some (l.foldl f s)
  | [], s, _ => rfl
  | a :: l, s, h => by
    have hrec := optionFoldlM_eq_foldl (l := l) (s := f s a)
      (fun s2 x hx => h s2 x (List.mem_cons_of_mem a hx))
    simp [optionFoldlM, h s a (List.mem_cons_self a l), hrec]

theorem pyIndex?_eq {α : Type} {p : α → Bool} :
    ∀ {l : List α}, (∃ a ∈ l, p a) → pyIndex? p l = some (pyIndex p l)
  | [], h => by simp at h
  | a :: l, h => by
    by_cases hp : p a
    · simp [pyIndex?, pyIndex, hp]
    · have hx : ∃ x ∈ l, p x := by
        obtain ⟨x, hx, hpx⟩ := h
        rcases List.mem_cons.mp hx with rfl | hx
        · exact absurd hpx hp
        · exact ⟨x, hx, hpx⟩
      simp [pyIndex?, pyIndex, hp, pyIndex?_eq hx]

theorem foldl_max_mem : ∀ (l : List ℚ) (a : ℚ), l.foldl max a ∈ a :: l
  | [], a => by simp
  | b :: t, a => by
    simp only [List.foldl_cons]
    have h := foldl_max_mem t (max a b)
    rcases List.mem_cons.mp h with h | h
    · rw [h]
      rcases max_choice a b with h2 | h2 <;> rw [h2] <;> simp
    · exact List.mem_cons_of_mem _ (List.mem_cons_of_mem _ h)

/-!  Per-scorer structural lemmas: every emitted item carries its corpus key
as `uid`, and excluded keys never get through. -/

theorem leader_stat_for_some {td : List TournamentData}
    {rankings : List (List (String × ℕ))} {p q r : ℚ} {key : String}
    {s : LeaderStat} (h : leader_stat_for td rankings p q r key = some s) :
    s.uid = key := by
  simp only [leader_stat_for, Option.ite_none_left_eq_some, Option.some.injEq] at h
  obtain ⟨h1, h2, h3, h4, h5, h6⟩ := h
  subst h6
  rfl

theorem rise_candidate_some {td : List TournamentData}
    {arch : String → Option String} {excl : List String} {key : String}
    {c : RiseCand} (h : rise_candidate td arch excl key = some c) :
    c.uid = key ∧ key ∉ excl := by
  simp only [rise_candidate, Option.ite_none_left_eq_some, Option.some.injEq] at h
  obtain ⟨hnot, h2, h3, h4, h5, h⟩ := h
  have hexcl : key ∉ excl := fun hk => hnot (Or.inl hk)
  split at h
  · exact absurd h (by simp)
  · injection h with h7
    subst h7
    exact ⟨rfl, hexcl⟩

theorem chopped_candidate_some {td : List TournamentData}
    {arch : String → Option String} {excl : List String} {now : Int}
    {rw : Int → ℚ} {key : String} {c : ChoppedCand}
    (h : chopped_candidate td arch excl now rw key = some c) :
    c.key = key ∧ key ∉ excl := by
  simp only [chopped_candidate, Option.ite_none_left_eq_some,
    Option.bind_eq_some, Option.some.injEq] at h
  obtain ⟨hnot, h2, info, hinfo, h3, h4⟩ := h
  have hexcl : key ∉ excl := fun hk => hnot (Or.inl hk)
  subst h4
  exact ⟨rfl, hexcl⟩

theorem day2d_tail_some {extended : List TournamentData}
    {arch : String → Option String} {name key : String}
    {all_usage recent_usage : List ℚ} {mx : ℚ} {ta : ℕ} {ts : ℚ} {mi : ℕ}
    {c : Day2dCand}
    (h : day2d_tail extended arch name key all_usage recent_usage mx ta ts mi = some c) :
    c.uid = key := by
  simp only [day2d_tail, Option.ite_none_left_eq_some, Option.some.injEq] at h
  obtain ⟨h1, h2⟩ := h
  subst h2
  rfl

theorem day2d_candidate_gen_some {g : Bool} {extended : List TournamentData}
    {arch : String → Option String} {excl : List String} {key : String}
    {c : Day2dCand}
    (h : day2d_candidate_gen g extended arch excl key = some c) :
    c.uid = key ∧ key ∉ excl := by
  simp only [day2d_candidate_gen, Option.ite_none_left_eq_some, Option.some.injEq] at h
  obtain ⟨hnot, h2, h3, h4, h5, h6, h7, h8, h9, h⟩ := h
  have hexcl : key ∉ excl := fun hk => hnot (Or.inl hk)
  exact ⟨day2d_tail_some h, hexcl⟩

theorem mem_compute_consistent_leaders {td : List TournamentData}
    {keys : List String} {ml : ℕ} {p q r : ℚ} {it : LeaderItem}
    (h : it ∈ compute_consistent_leaders td keys ml p q r) : it.uid ∈ keys := by
  simp only [compute_consistent_leaders] at h
  split at h
  · simp at h
  obtain ⟨s, hs, rfl⟩ := List.mem_map.mp h
  have hs2 := List.mem_of_mem_take hs
  rw [mem_pySorted] at hs2
  obtain ⟨k, hk, hsk⟩ := List.mem_filterMap.mp hs2
  have huid := leader_stat_for_some hsk
  simpa [mkLeaderItem, huid] using hk

theorem mem_compute_on_the_rise {td : List TournamentData} {keys : List String}
    {arch : String → Option String} {excl : List String} {ml cap : ℕ}
    {it : RiseItem} (h : it ∈ compute_on_the_rise td keys arch excl ml cap) :
    it.uid ∈ keys ∧ it.uid ∉ excl := by
  simp only [compute_on_the_rise] at h
  split at h
  · simp at h
  obtain ⟨c, hc, rfl⟩ := cap_loop_mem _ _ _ _ _ _ _ _ h
  rw [mem_pySorted] at hc
  obtain ⟨k, hk, hck⟩ := List.mem_filterMap.mp hc
  obtain ⟨huid, hexcl⟩ := rise_candidate_some hck
  constructor
  · simpa [mkRiseItem, huid] using hk
  · simpa [mkRiseItem, huid] using hexcl

theorem mem_compute_chopped {td : List TournamentData} {keys : List String}
    {arch : String → Option String} {excl : List String} {now : Int}
    {rw : Int → ℚ} {ml cap : ℕ} {it : ChoppedItem}
    (h : it ∈ compute_chopped_and_washed td keys arch excl now rw ml cap) :
    it.uid ∈ keys ∧ it.uid ∉ excl := by
  simp only [compute_chopped_and_washed] at h
  split at h
  · simp at h
  obtain ⟨c, hc, rfl⟩ := cap_loop_mem _ _ _ _ _ _ _ _ h
  rw [mem_pySorted] at hc
  obtain ⟨k, hk, hck⟩ := List.mem_filterMap.mp hc
  obtain ⟨huid, hexcl⟩ := chopped_candidate_some hck
  constructor
  · simpa [mkChoppedItem, huid] using hk
  · simpa [mkChoppedItem, huid] using hexcl

theorem mem_compute_that_day2d {ext : List TournamentData} {keys : List String}
    {arch : String → Option String} {excl : List String} {ml cap : ℕ}
    {it : Day2dItem} (h : it ∈ compute_that_day2d ext keys arch excl ml cap) :
    it.uid ∈ keys ∧ it.uid ∉ excl := by
  simp only [compute_that_day2d] at h
  split at h
  · simp at h
  obtain ⟨c, hc, rfl⟩ := cap_loop_mem _ _ _ _ _ _ _ _ h
  rw [mem_pySorted] at hc
  obtain ⟨k, hk, hck⟩ := List.mem_filterMap.mp hc
  obtain ⟨huid, hexcl⟩ := day2d_candidate_gen_some hck
  constructor
  · simpa [mkDay2dItem, huid] using hk
  · simpa [mkDay2dItem, huid] using hexcl

/-!  Assembler-level membership lemmas. -/

theorem mem_leaders_merge_fill {it : LeaderItem} :
    ∀ {cur pool : List LeaderItem},
      it ∈ leaders_merge_fill cur pool → it ∈ cur ∨ it ∈ pool
  | cur, [], h => Or.inl h
  | cur, p :: rest, h => by
    simp only [leaders_merge_fill] at h
    split at h
    · exact Or.inl h
    split at h
    · rcases mem_leaders_merge_fill h with h | h
      · exact Or.inl h
      · exact Or.inr (List.mem_cons_of_mem p h)
    · rcases mem_leaders_merge_fill h with h | h
      · rcases List.mem_append.mp h with h | h
        · exact Or.inl h
        · simp only [List.mem_singleton] at h
          exact Or.inr (h ▸ List.mem_cons_self p rest)
      · exact Or.inr (List.mem_cons_of_mem p h)

theorem mem_leaders_ladder {td : List TournamentData} {keys : List String}
    {it : LeaderItem} (h : it ∈ leaders_ladder td keys) : it.uid ∈ keys := by
  simp only [leaders_ladder] at h
  split at h
  · exact mem_compute_consistent_leaders h
  split at h
  · exact mem_compute_consistent_leaders h
  split at h
  · exact mem_compute_consistent_leaders h
  split at h
  · exact mem_compute_consistent_leaders h
  split at h
  · exact mem_compute_consistent_leaders h
  split at h
  · rcases mem_leaders_merge_fill h with h | h
    · exact mem_compute_consistent_leaders h
    · exact mem_compute_consistent_leaders h
  · rcases mem_leaders_merge_fill h with h | h
    · rcases mem_leaders_merge_fill h with h | h
      · exact mem_compute_consistent_leaders h
      · exact mem_compute_consistent_leaders h
    · exact mem_compute_consistent_leaders h

theorem mem_cap_ladder {β : Type} {attempt : ℕ → List β} {it : β}
    (h : it ∈ cap_ladder attempt) :
    it ∈ attempt MAX_PER_ARCHETYPE ∨ it ∈ attempt 3 ∨ it ∈ attempt 4 := by
  simp only [cap_ladder] at h
  split at h
  · exact Or.inl h
  split at h
  · exact Or.inr (Or.inl h)
  · exact Or.inr (Or.inr h)

theorem mem_day2d_resolve {pool : List Day2dItem} {sid : String}
    {it : Day2dItem} (h : day2d_resolve pool sid = some it) : it ∈ pool := by
  simp only [day2d_resolve] at h
  split at h
  · rename_i found heq
    injection h with h2
    subst h2
    exact List.mem_of_mem_filter
      (List.mem_of_getLast?_eq_some heq)
  · exact List.mem_of_find?_eq_some h

theorem mem_day2d_select {pool : List Day2dItem} {it : Day2dItem} :
    ∀ {ids : List String} {st : List Day2dItem × List String},
      it ∈ (day2d_select pool ids st).1 → it ∈ st.1 ∨ it ∈ pool
  | [], st, h => Or.inl h
  | sid :: rest, st, h => by
    simp only [day2d_select] at h
    split at h
    · exact mem_day2d_select h
    · rename_i found heq
      split at h
      · exact mem_day2d_select h
      · rcases mem_day2d_select h with h | h
        · rcases List.mem_append.mp h with h | h
          · exact Or.inl h
          · simp only [List.mem_singleton] at h
            exact Or.inr (h ▸ mem_day2d_resolve heq)
        · exact Or.inr h

theorem mem_day2d_topup {it : Day2dItem} :
    ∀ {chosen : List Day2dItem} {seen : List String} {pool : List Day2dItem},
      it ∈ day2d_topup chosen seen pool → it ∈ chosen ∨ it ∈ pool
  | chosen, seen, [], h => Or.inl h
  | chosen, seen, p :: rest, h => by
    simp only [day2d_topup] at h
    split at h
    · rcases mem_day2d_topup h with h | h
      · exact Or.inl h
      · exact Or.inr (List.mem_cons_of_mem p h)
    split at h
    · rcases List.mem_append.mp h with h | h
      · exact Or.inl h
      · simp only [List.mem_singleton] at h
        exact Or.inr (h ▸ List.mem_cons_self p rest)
    · rcases mem_day2d_topup h with h | h
      · rcases List.mem_append.mp h with h | h
        · exact Or.inl h
        · simp only [List.mem_singleton] at h
          exact Or.inr (h ▸ List.mem_cons_self p rest)
      · exact Or.inr (List.mem_cons_of_mem p h)

theorem mem_day2d_curate {pool : List Day2dItem} {ids : List String}
    {it : Day2dItem} (h : it ∈ day2d_curate pool ids) : it ∈ pool := by
  simp only [day2d_curate] at h
  have h2 := List.mem_of_mem_take h
  split at h2
  · rcases mem_day2d_topup h2 with h3 | h3
    · rcases mem_day2d_select h3 with h4 | h4
      · simp at h4
      · exact h4
    · exact h3
  · rcases mem_day2d_select h2 with h4 | h4
    · simp at h4
    · exact h4

theorem filter_by_current_rotation_subset (td : List TournamentData) :
    filter_by_current_rotation td ⊆ td := by
  simp only [filter_by_current_rotation]
  split
  · exact fun x hx => hx
  split
  · exact fun x hx => hx
  split
  · exact (List.filter_sublist _).subset
  · exact fun x hx => hx

theorem mem_pct_map_combine {ts : List TournamentData} {p : String × ℚ}
    (hp : p ∈ (combine_tournament_data ts).pct_map) :
    ∃ t0 ∈ ts, p.1 ∈ t0.pct_map.map Prod.fst := by
  cases ts with
  | nil => simp [combine_tournament_data, emptyTournament] at hp
  | cons t1 ts2 =>
    cases ts2 with
    | nil =>
      exact ⟨t1, List.mem_cons_self t1 [],
        by simpa using List.mem_map_of_mem Prod.fst hp⟩
    | cons t2 rest =>
      simp only [combine_tournament_data] at hp
      obtain ⟨card, hcard, heq⟩ := List.mem_map.mp hp
      rw [mem_dedupFirst] at hcard
      obtain ⟨t0, ht0, hk⟩ := List.mem_flatMap.mp hcard
      refine ⟨t0, ht0, ?_⟩
      have : p.1 = card := by rw [← heq]
      rwa [this]

theorem mem_pct_map_group {raw : List TournamentData} {t : TournamentData}
    (ht : t ∈ group_by_weekend raw) {p : String × ℚ} (hp : p ∈ t.pct_map) :
    ∃ t0 ∈ raw, p.1 ∈ t0.pct_map.map Prod.fst := by
  simp only [group_by_weekend] at ht
  rcases List.mem_append.mp ht with ht | ht
  · obtain ⟨k, hk, rfl⟩ := List.mem_map.mp ht
    obtain ⟨t0, ht0, hmem⟩ := mem_pct_map_combine hp
    exact ⟨t0, List.mem_of_mem_filter (List.mem_of_mem_filter ht0), hmem⟩
  · exact ⟨t, List.mem_of_mem_filter ht, List.mem_map_of_mem _ hp⟩

theorem all_card_keys_grouped_ne_empty {raw : List TournamentData}
    (hkeys : ∀ t ∈ raw, ∀ p ∈ t.pct_map, p.1 ≠ "") :
    ∀ k ∈ all_card_keys (filter_by_current_rotation (group_by_weekend raw)),
      k ≠ "" := by
  intro k hk
  simp only [all_card_keys] at hk
  rw [mem_dedupFirst] at hk
  obtain ⟨t, ht, hkt⟩ := List.mem_flatMap.mp hk
  obtain ⟨p, hp, rfl⟩ := List.mem_map.mp hkt
  have ht2 : t ∈ group_by_weekend raw := filter_by_current_rotation_subset _ ht
  obtain ⟨t0, ht0, hmem⟩ := mem_pct_map_group ht2 hp
  obtain ⟨p0, hp0, he⟩ := List.mem_map.mp hmem
  rw [← he]
  exact hkeys t0 ht0 p0 hp0

/-- Two mapped key lists are disjoint when the first lands in `ks` and the
second avoids `ks`. -/
theorem disjoint_of_key_not_mem {α β : Type} (f : α → String) (g : β → String)
    {l1 : List α} {l2 : List β} (ks : List String)
    (h1 : ∀ a ∈ l1, f a ∈ ks) (h2 : ∀ b ∈ l2, g b ∉ ks) :
    (l1.map f).Disjoint (l2.map g) := by
  intro k hk1 hk2
  obtain ⟨a, ha, rfl⟩ := List.mem_map.mp hk1
  obtain ⟨b, hb, he⟩ := List.mem_map.mp hk2
  exact h2 b hb (he ▸ h1 a ha)

/-- C1: Mutual exclusion across categories.  For every run of the engine on
observations whose card keys are non-empty strings, no card identity (its
`uid`, or its name when no uid exists — here `leaderKeyOf` and friends, the
embedding of `c.get('uid') or c['name']`) appears in more than one of the
four final category item lists, because each scorer is invoked with the set
of identities already placed by the earlier scorers and skips any card whose
key is in that set. -/
theorem C1_mutual_exclusion (raw : List TournamentData)
    (arch : String → Option String) (now : Int) (rw : Int → ℚ)
    (ps : ℕ) (sel : Option (List String))
    (hkeys : ∀ t ∈ raw, ∀ p ∈ t.pct_map, p.1 ≠ "") :
    let out := generate_suggestions raw arch now rw ps sel
    ((out.leaders.map leaderKeyOf).Disjoint (out.on_the_rise.map riseKeyOf)) ∧
    ((out.leaders.map leaderKeyOf).Disjoint (out.chopped.map choppedKeyOf)) ∧
    ((out.leaders.map leaderKeyOf).Disjoint (out.that_day2d.map day2dKeyOf)) ∧
    ((out.on_the_rise.map riseKeyOf).Disjoint (out.chopped.map choppedKeyOf)) ∧
    ((out.on_the_rise.map riseKeyOf).Disjoint (out.that_day2d.map day2dKeyOf)) ∧
    ((out.chopped.map choppedKeyOf).Disjoint (out.that_day2d.map day2dKeyOf)) := by
  intro out
  let grouped := group_by_weekend raw
  let td := filter_by_current_rotation grouped
  let keys := all_card_keys td
  let L := leaders_ladder td keys
  let lk := L.map leaderKeyOf
  let R := cap_ladder (fun cap => compute_on_the_rise td keys arch lk MAX_CANDIDATES cap)
  let rk := R.map riseKeyOf
  let C := cap_ladder (fun cap =>
    compute_chopped_and_washed td keys arch (lk ++ rk) now rw MAX_CANDIDATES cap)
  let ck := C.map choppedKeyOf
  let excl3 := lk ++ rk ++ ck
  let D0 := cap_ladder (fun cap => compute_that_day2d grouped keys arch excl3 MAX_CANDIDATES cap)
  let pool := compute_that_day2d grouped keys arch excl3
    (max ps MAX_CANDIDATES) (max (MAX_PER_ARCHETYPE * 5) 10)
  let D : List Day2dItem :=
    match sel with
    | some ids => if pool.isEmpty then D0 else day2d_curate pool ids
    | none => D0
  have hol : out.leaders = L.take MAX_CANDIDATES := rfl
  have hor : out.on_the_rise = R.take MAX_CANDIDATES := rfl
  have hoc : out.chopped = C.take MAX_CANDIDATES := rfl
  have hod : out.that_day2d = D.take MAX_CANDIDATES := rfl
  have hne : ∀ k ∈ keys, k ≠ "" := all_card_keys_grouped_ne_empty hkeys
  have hLf : ∀ it ∈ L, it.uid ∈ keys := fun it hit => mem_leaders_ladder hit
  have hRf : ∀ it ∈ R, it.uid ∈ keys ∧ it.uid ∉ lk := by
    intro it hit
    rcases mem_cap_ladder hit with h3 | h3 | h3 <;> exact mem_compute_on_the_rise h3
  have hCf : ∀ it ∈ C, it.uid ∈ keys ∧ it.uid ∉ lk ++ rk := by
    intro it hit
    rcases mem_cap_ladder hit with h3 | h3 | h3 <;> exact mem_compute_chopped h3
  have hDf : ∀ it ∈ D, it.uid ∈ keys ∧ it.uid ∉ excl3 := by
    have hD0 : ∀ it2 ∈ D0, it2.uid ∈ keys ∧ it2.uid ∉ excl3 := by
      intro it2 h2
      rcases mem_cap_ladder h2 with h3 | h3 | h3 <;> exact mem_compute_that_day2d h3
    intro it hit
    cases sel with
    | none => exact hD0 it hit
    | some ids =>
      by_cases hp : pool.isEmpty
      · rw [show D = D0 from by simp [D, hp]] at hit
        exact hD0 it hit
      · rw [show D = day2d_curate pool ids from by simp [D, hp]] at hit
        exact mem_compute_that_day2d (mem_day2d_curate hit)
  have hLkey : ∀ it ∈ L, leaderKeyOf it = it.uid := by
    intro it hit
    have h2 := hne _ (hLf it hit)
    simp [leaderKeyOf, h2]
  have hRkey : ∀ it ∈ R, riseKeyOf it = it.uid := by
    intro it hit
    have h2 := hne _ (hRf it hit).1
    simp [riseKeyOf, h2]
  have hCkey : ∀ it ∈ C, choppedKeyOf it = it.uid := by
    intro it hit
    have h2 := hne _ (hCf it hit).1
    simp [choppedKeyOf, h2]
  have hDkey : ∀ it ∈ D, day2dKeyOf it = it.uid := by
    intro it hit
    have h2 := hne _ (hDf it hit).1
    simp [day2dKeyOf, h2]
  rw [hol, hor, hoc, hod]
  refine ⟨?_, ?_, ?_, ?_, ?_, ?_⟩
  · refine disjoint_of_key_not_mem _ _ lk ?_ ?_
    · intro a ha
      exact List.mem_map_of_mem _ (List.mem_of_mem_take ha)
    · intro b hb
      have hbR := List.mem_of_mem_take hb
      rw [hRkey b hbR]
      exact (hRf b hbR).2
  · refine disjoint_of_key_not_mem _ _ lk ?_ ?_
    · intro a ha
      exact List.mem_map_of_mem _ (List.mem_of_mem_take ha)
    · intro b hb
      have hbC := List.mem_of_mem_take hb
      rw [hCkey b hbC]
      exact fun hmem => (hCf b hbC).2 (List.mem_append_left _ hmem)
  · refine disjoint_of_key_not_mem _ _ lk ?_ ?_
    · intro a ha
      exact List.mem_map_of_mem _ (List.mem_of_mem_take ha)
    · intro b hb
      have hbD := List.mem_of_mem_take hb
      rw [hDkey b hbD]
      exact fun hmem =>
        (hDf b hbD).2 (List.mem_append_left _ (List.mem_append_left _ hmem))
  · refine disjoint_of_key_not_mem _ _ rk ?_ ?_
    · intro a ha
      exact List.mem_map_of_mem _ (List.mem_of_mem_take ha)
    · intro b hb
      have hbC := List.mem_of_mem_take hb
      rw [hCkey b hbC]
      exact fun hmem => (hCf b hbC).2 (List.mem_append_right _ hmem)
  · refine disjoint_of_key_not_mem _ _ rk ?_ ?_
    · intro a ha
      exact List.mem_map_of_mem _ (List.mem_of_mem_take ha)
    · intro b hb
      have hbD := List.mem_of_mem_take hb
      rw [hDkey b hbD]
      exact fun hmem =>
        (hDf b hbD).2 (List.mem_append_left _ (List.mem_append_right _ hmem))
  · refine disjoint_of_key_not_mem _ _ ck ?_ ?_
    · intro a ha
      exact List.mem_map_of_mem _ (List.mem_of_mem_take ha)
    · intro b hb
      have hbD := List.mem_of_mem_take hb
      rw [hDkey b hbD]
      exact fun hmem =>
        (hDf b hbD).2 (List.mem_append_right _ hmem)

/-!  Cap-respect infrastructure (claim C6). -/

theorem cap_loop_sublist {α β : Type} (archOf : α → String) (emit : α → β)
    (cap maxl : ℕ) :
    ∀ (l : List α) (counts : List (String × ℕ)) (n : ℕ),
      (cap_loop archOf emit cap maxl l counts n).Sublist (l.map emit)
  | [], counts, n => by simp [cap_loop]
  | c :: rest, counts, n => by
    simp only [cap_loop, List.map_cons]
    split
    · exact (cap_loop_sublist archOf emit cap maxl rest _ _).cons₂ (emit c)
    · exact (cap_loop_sublist archOf emit cap maxl rest _ _).cons (emit c)

theorem cap_ladder_cases {β : Type} (attempt : ℕ → List β) :
    cap_ladder attempt = attempt MAX_PER_ARCHETYPE ∨
    cap_ladder attempt = attempt 3 ∨ cap_ladder attempt = attempt 4 := by
  simp only [cap_ladder]
  split
  · exact Or.inl rfl
  split
  · exact Or.inr (Or.inl rfl)
  · exact Or.inr (Or.inr rfl)

theorem nodup_filterMap_uid {keys : List String} {β : Type}
    {f : String → Option β} {uidOf : β → String}
    (hf : ∀ k c, f k = some c → uidOf c = k) (hnodup : keys.Nodup) :
    ((keys.filterMap f).map uidOf).Nodup := by
  induction keys with
  | nil => simp
  | cons k ks ih =>
    rw [List.nodup_cons] at hnodup
    have ihr := ih hnodup.2
    cases hc : f k with
    | none => simpa [List.filterMap_cons, hc] using ihr
    | some c =>
      simp only [List.filterMap_cons, hc, List.map_cons, List.nodup_cons]
      refine ⟨fun hmem => ?_, ihr⟩
      obtain ⟨c2, hc2, he⟩ := List.mem_map.mp hmem
      obtain ⟨k2, hk2, hck2⟩ := List.mem_filterMap.mp hc2
      rw [hf k c hc] at he
      rw [← hf k2 c2 hck2, he] at hk2
      exact hnodup.1 hk2

/-- The One-Offs scorer output has pairwise distinct `uid` fields whenever
the shared card-key list does. -/
theorem nodup_day2d_uids {ext : List TournamentData} {keys : List String}
    {arch : String → Option String} {excl : List String} {ml cap : ℕ}
    (hnodup : keys.Nodup) :
    ((compute_that_day2d ext keys arch excl ml cap).map Day2dItem.uid).Nodup := by
  simp only [compute_that_day2d]
  split
  · simp
  · have hcand : ((keys.filterMap (day2d_candidate ext arch excl)).map
        Day2dCand.uid).Nodup :=
      nodup_filterMap_uid (fun k c hc => (day2d_candidate_gen_some hc).1) hnodup
    have hsorted : ((pySorted day2dLe
        (keys.filterMap (day2d_candidate ext arch excl))).map
        Day2dCand.uid).Nodup :=
      (((pySorted_perm day2dLe _).map Day2dCand.uid).nodup_iff).mpr hcand
    have hsub := (cap_loop_sublist (fun c => c.archetype) mkDay2dItem cap ml
      (pySorted day2dLe (keys.filterMap (day2d_candidate ext arch excl)))
      [] 0).map Day2dItem.uid
    rw [List.map_map] at hsub
    have hcomp : (Day2dItem.uid ∘ mkDay2dItem) = Day2dCand.uid :=
      funext (fun c => rfl)
    rw [hcomp] at hsub
    exact List.Nodup.sublist hsub hsorted

theorem archCount_on_the_rise_le (td : List TournamentData) (keys : List String)
    (arch : String → Option String) (excl : List String) (maxl cap : ℕ)
    (a : String) :
    archCountRise (compute_on_the_rise td keys arch excl maxl cap) a ≤ cap := by
  simp only [archCountRise, compute_on_the_rise]
  split
  · simp
  · have h := cap_loop_arch_bound (fun c => c.archetype) mkRiseItem
      (fun it => it.archetype) (fun c => rfl) cap maxl
      (pySorted riseLe (keys.filterMap (rise_candidate td arch excl))) [] 0 a
      (by simp [getNat, alist_get?])
    simpa [getNat, alist_get?] using h

theorem archCount_chopped_le (td : List TournamentData) (keys : List String)
    (arch : String → Option String) (excl : List String) (now : Int)
    (rw : Int → ℚ) (maxl cap : ℕ) (a : String) :
    archCountChopped (compute_chopped_and_washed td keys arch excl now rw maxl cap) a
      ≤ cap := by
  simp only [archCountChopped, compute_chopped_and_washed]
  split
  · simp
  · have h := cap_loop_arch_bound (fun c => c.archetype) mkChoppedItem
      (fun it => it.archetype) (fun c => rfl) cap maxl
      (pySorted choppedLe (keys.filterMap (chopped_candidate td arch excl now rw)))
      [] 0 a (by simp [getNat, alist_get?])
    simpa [getNat, alist_get?] using h

theorem archCount_day2d_le (ext : List TournamentData) (keys : List String)
    (arch : String → Option String) (excl : List String) (maxl cap : ℕ)
    (a : String) :
    archCountDay2d (compute_that_day2d ext keys arch excl maxl cap) a ≤ cap := by
  simp only [archCountDay2d, compute_that_day2d]
  split
  · simp
  · have h := cap_loop_arch_bound (fun c => c.archetype) mkDay2dItem
      (fun it => it.archetype) (fun c => rfl) cap maxl
      (pySorted day2dLe (keys.filterMap (day2d_candidate ext arch excl)))
      [] 0 a (by simp [getNat, alist_get?])
    simpa [getNat, alist_get?] using h

theorem cap_ladder_count_le {β : Type} (attempt : ℕ → List β)
    (count : List β → ℕ) (h : ∀ c, count (attempt c) ≤ c) :
    count (cap_ladder attempt) ≤ 4 := by
  rcases cap_ladder_cases attempt with hc | hc | hc <;> rw [hc]
  · exact le_trans (h MAX_PER_ARCHETYPE) (by decide)
  · exact le_trans (h 3) (by decide)
  · exact h 4

theorem countP_take_le {α : Type} (p : α → Bool) (n : ℕ) (l : List α) :
    (l.take n).countP p ≤ l.countP p := by
  conv_rhs => rw [← List.take_append_drop n l]
  rw [List.countP_append]
  exact Nat.le_add_right _ _

/-- The selection loop of the curation step keeps `st.2` equal to the key
images of `st.1`, so the chosen keys stay pairwise distinct. -/
theorem day2d_select_inv {pool : List Day2dItem} :
    ∀ {ids : List String} {st : List Day2dItem × List String},
      st.2 = st.1.map day2dKeyOf → st.2.Nodup →
      (day2d_select pool ids st).2 = (day2d_select pool ids st).1.map day2dKeyOf ∧
        (day2d_select pool ids st).2.Nodup
  | [], st, he, hn => ⟨he, hn⟩
  | sid :: rest, st, he, hn => by
    simp only [day2d_select]
    split
    · exact day2d_select_inv he hn
    · rename_i found heq
      split
      · exact day2d_select_inv he hn
      · rename_i hcond
        have hnm : day2dKeyOf found ∉ st.2 := fun hmem => hcond (Or.inl hmem)
        refine day2d_select_inv ?_ ?_
        · simp [he]
        · rw [List.nodup_append]
          exact ⟨hn, List.nodup_singleton _,
            fun x hx hx2 => hnm ((List.mem_singleton.mp hx2) ▸ hx)⟩

/-- The top-up loop preserves distinctness of the chosen keys, given the
`seen` set is exactly the key image of `chosen`. -/
theorem day2d_topup_nodup :
    ∀ {pool chosen : List Day2dItem} {seen : List String},
      seen = chosen.map day2dKeyOf → seen.Nodup →
      ((day2d_topup chosen seen pool).map day2dKeyOf).Nodup
  | [], chosen, seen, he, hn => by
    simpa [day2d_topup, ← he] using hn
  | p :: rest, chosen, seen, he, hn => by
    simp only [day2d_topup]
    split
    · exact day2d_topup_nodup he hn
    · rename_i hcond
      split
      · rw [List.map_append, List.nodup_append]
        refine ⟨he ▸ hn, by simp, fun x hx hx2 => ?_⟩
        simp only [List.map_cons, List.map_nil, List.mem_singleton] at hx2
        rw [← he] at hx
        exact hcond (hx2 ▸ hx)
      · refine day2d_topup_nodup ?_ ?_
        · simp [he]
        · rw [List.nodup_append]
          exact ⟨hn, List.nodup_singleton _,
            fun x hx hx2 => hcond ((List.mem_singleton.mp hx2) ▸ hx)⟩

/-- The curated One-Offs list never repeats a card key. -/
theorem nodup_day2d_curate_keys {pool : List Day2dItem} {ids : List String} :
    ((day2d_curate pool ids).map day2dKeyOf).Nodup := by
  simp only [day2d_curate]
  have hsel := @day2d_select_inv pool ids ([], []) rfl List.nodup_nil
  split
  · exact List.Nodup.sublist ((List.take_sublist _ _).map _)
      (day2d_topup_nodup hsel.1 hsel.2)
  · exact List.Nodup.sublist ((List.take_sublist _ _).map _)
      (hsel.1 ▸ hsel.2)

/-- A key-distinct selection out of a pool satisfies every counting
predicate at most as often as the pool itself. -/
theorem countP_le_of_subset_nodup {chosen pool : List Day2dItem}
    (p : Day2dItem → Bool)
    (hsub : ∀ it ∈ chosen, it ∈ pool)
    (hnc : (chosen.map day2dKeyOf).Nodup) :
    chosen.countP p ≤ pool.countP p := by
  have h1 : ((chosen.filter p).map day2dKeyOf).Nodup :=
    List.Nodup.sublist ((List.filter_sublist _).map _) hnc
  have hss : ((chosen.filter p).map day2dKeyOf)
      ⊆ ((pool.filter p).map day2dKeyOf) := by
    intro x hx
    obtain ⟨it, hit, rfl⟩ := List.mem_map.mp hx
    have hfc := List.mem_filter.mp hit
    exact List.mem_map_of_mem _ (List.mem_filter.mpr ⟨hsub it hfc.1, hfc.2⟩)
  have hlen := (h1.subperm hss).length_le
  simpa [List.countP_eq_length_filter] using hlen

/-- C6, amended.  The per-archetype caps hold for the three ladder-produced
category lists on every run: Rising and Crashed never take more than the
loosest ladder cap (4, the base tier using `MAX_PER_ARCHETYPE = 2`) from a
single archetype, and so does the One-Offs list when no curation selection
file is in play.  The curated One-Offs list, however, is bounded only by
the candidate-pool cap `max (MAX_PER_ARCHETYPE * 5) 10 = 10`: the curation
and top-up path never re-checks the ladder caps, so the part of the claim
covering "a One-Offs final list produced via the curation/top-up path" is
wrong (see the counterexample). -/
theorem C6_archetype_cap_amended (raw : List TournamentData)
    (arch : String → Option String) (now : Int) (rw : Int → ℚ)
    (ps : ℕ) (sel : Option (List String)) (a : String) :
    archCountRise (generate_suggestions raw arch now rw ps sel).on_the_rise a ≤ 4 ∧
    archCountChopped (generate_suggestions raw arch now rw ps sel).chopped a ≤ 4 ∧
    archCountDay2d (generate_suggestions raw arch now rw ps none).that_day2d a ≤ 4 ∧
    archCountDay2d (generate_suggestions raw arch now rw ps sel).that_day2d a
      ≤ max (MAX_PER_ARCHETYPE * 5) 10 := by
  let grouped := group_by_weekend raw
  let td := filter_by_current_rotation grouped
  let keys := all_card_keys td
  let L := leaders_ladder td keys
  let lk := L.map leaderKeyOf
  let R := cap_ladder (fun cap => compute_on_the_rise td keys arch lk MAX_CANDIDATES cap)
  let rk := R.map riseKeyOf
  let C := cap_ladder (fun cap =>
    compute_chopped_and_washed td keys arch (lk ++ rk) now rw MAX_CANDIDATES cap)
  let ck := C.map choppedKeyOf
  let excl3 := lk ++ rk ++ ck
  let D0 := cap_ladder (fun cap => compute_that_day2d grouped keys arch excl3 MAX_CANDIDATES cap)
  let pool := compute_that_day2d grouped keys arch excl3
    (max ps MAX_CANDIDATES) (max (MAX_PER_ARCHETYPE * 5) 10)
  have hor : (generate_suggestions raw arch now rw ps sel).on_the_rise
      = R.take MAX_CANDIDATES := rfl
  have hoc : (generate_suggestions raw arch now rw ps sel).chopped
      = C.take MAX_CANDIDATES := rfl
  have hodn : (generate_suggestions raw arch now rw ps none).that_day2d
      = D0.take MAX_CANDIDATES := rfl
  have hR : archCountRise R a ≤ 4 :=
    cap_ladder_count_le _ (fun l => archCountRise l a)
      (fun c => archCount_on_the_rise_le td keys arch lk MAX_CANDIDATES c a)
  have hC : archCountChopped C a ≤ 4 :=
    cap_ladder_count_le _ (fun l => archCountChopped l a)
      (fun c => archCount_chopped_le td keys arch (lk ++ rk) now rw MAX_CANDIDATES c a)
  have hD0b : archCountDay2d D0 a ≤ 4 :=
    cap_ladder_count_le _ (fun l => archCountDay2d l a)
      (fun c => archCount_day2d_le grouped keys arch excl3 MAX_CANDIDATES c a)
  have hpool : archCountDay2d pool a ≤ max (MAX_PER_ARCHETYPE * 5) 10 :=
    archCount_day2d_le grouped keys arch excl3 (max ps MAX_CANDIDATES)
      (max (MAX_PER_ARCHETYPE * 5) 10) a
  have h4 : (4 : ℕ) ≤ max (MAX_PER_ARCHETYPE * 5) 10 := by decide
  refine ⟨?_, ?_, ?_, ?_⟩
  · rw [hor]
    simp only [archCountRise] at hR ⊢
    exact le_trans (countP_take_le _ _ _) hR
  · rw [hoc]
    simp only [archCountChopped] at hC ⊢
    exact le_trans (countP_take_le _ _ _) hC
  · rw [hodn]
    simp only [archCountDay2d] at hD0b ⊢
    exact le_trans (countP_take_le _ _ _) hD0b
  · clear hor hoc
    cases sel with
    | none =>
      rw [hodn]
      simp only [archCountDay2d] at hD0b ⊢
      exact le_trans (countP_take_le _ _ _) (le_trans hD0b h4)
    | some ids =>
      have h : (generate_suggestions raw arch now rw ps (some ids)).that_day2d
          = (if pool.isEmpty then D0 else day2d_curate pool ids).take MAX_CANDIDATES :=
        rfl
      rw [h]
      simp only [archCountDay2d] at hD0b hpool ⊢
      refine le_trans (countP_take_le _ _ _) ?_
      split
      · exact le_trans hD0b h4
      · exact le_trans
          (countP_le_of_subset_nodup _ (fun it hit => mem_day2d_curate hit)
            nodup_day2d_curate_keys) hpool

/-- C6, counterexample.  On the six-observation corpus `rawC6` (twelve
Leaders staples plus five one-off cards seen once), every card mapped to
the single archetype `ArchA`, and a curation selection file picking all
five one-offs, the curated One-Offs list carries five `ArchA` items: more
than 4, the loosest cap of the relaxation ladder (and far above the base
cap `MAX_PER_ARCHETYPE = 2` of the tier that produced the pool), so the
claim fails on the curation/top-up path. -/
theorem C6_counterexample :
    4 < archCountDay2d
      (generate_suggestions rawC6 archA 0 rwPow 60 (some selC6)).that_day2d
      "ArchA" := by
  with_unfolding_all decide

/-- Witness for C1: the Rising-scenario corpus `corpusC4` has only non-empty
card keys, and the run on it satisfies the six pairwise disjointness
conclusions. -/
theorem C1_mutual_exclusion_witness :
    (∀ t ∈ corpusC4, ∀ p ∈ t.pct_map, p.1 ≠ "") ∧
    (let out := generate_suggestions corpusC4 archNone 0 rwPow 60 none
     ((out.leaders.map leaderKeyOf).Disjoint (out.on_the_rise.map riseKeyOf)) ∧
     ((out.leaders.map leaderKeyOf).Disjoint (out.chopped.map choppedKeyOf)) ∧
     ((out.leaders.map leaderKeyOf).Disjoint (out.that_day2d.map day2dKeyOf)) ∧
     ((out.on_the_rise.map riseKeyOf).Disjoint (out.chopped.map choppedKeyOf)) ∧
     ((out.on_the_rise.map riseKeyOf).Disjoint (out.that_day2d.map day2dKeyOf)) ∧
     ((out.chopped.map choppedKeyOf).Disjoint (out.that_day2d.map day2dKeyOf))) :=
  ⟨by with_unfolding_all decide,
   C1_mutual_exclusion corpusC4 archNone 0 rwPow 60 none
     (by with_unfolding_all decide)⟩

theorem alist_get?_map_self {β : Type} (f : String → β) :
    ∀ (l : List String) (k : String),
      alist_get? (l.map (fun c => (c, f c))) k
        = if k ∈ l then some (f k) else none
  | [], k => by simp [alist_get?]
  | c :: l, k => by
    rw [List.map_cons, alist_get?_cons, alist_get?_map_self f l k]
    by_cases h : c = k
    · subst h; simp
    · simp [h, Ne.symm h]

theorem alist_get?_eq_none_of_not_mem {β : Type} {m : List (String × β)}
    {k : String} (h : k ∉ m.map Prod.fst) : alist_get? m k = none := by
  simp only [alist_get?]
  have hf : m.find? (fun p => p.1 == k) = none := by
    rw [List.find?_eq_none]
    intro p hp hbeq
    rw [beq_iff_eq] at hbeq
    exact h (hbeq ▸ List.mem_map_of_mem Prod.fst hp)
  rw [hf]
  rfl

theorem lookupQ_nonneg {m : List (String × ℚ)}
    (h : ∀ p ∈ m, 0 ≤ p.2) (k : String) : 0 ≤ lookupQ m k := by
  simp only [lookupQ, alist_get?]
  cases hf : m.find? (fun p => p.1 == k) with
  | none => simp
  | some p =>
    simpa using h p (List.mem_of_find?_eq_some hf)

/-- C2: Weekend merge correctness.  For every constituent group with only
non-negative usage percentages, the merged observation gives each card the
non-zero average of its usage values (a zero or absent value does not
dilute the average, and an all-zero card gets 0); and on the concrete
same-weekend pair `{A: 10, B: 0}` / `{A: 20, B: 5}`, grouping produces one
merged observation reporting `A = 15` and `B = 5`. -/
theorem C2_weekend_merge (ts : List TournamentData)
    (hpos : ∀ t ∈ ts, ∀ p ∈ t.pct_map, 0 ≤ p.2) (card : String) :
    lookupQ (combine_tournament_data ts).pct_map card = nonZeroAvg ts card ∧
    (group_by_weekend exC2).map (fun t => lookupQ t.pct_map "A") = [15] ∧
    (group_by_weekend exC2).map (fun t => lookupQ t.pct_map "B") = [5] := by
  refine ⟨?_, by with_unfolding_all decide, by with_unfolding_all decide⟩
  cases ts with
  | nil =>
    simp [combine_tournament_data, emptyTournament, lookupQ, alist_get?,
      nonZeroAvg]
  | cons t1 ts2 =>
    cases ts2 with
    | nil =>
      have hv : 0 ≤ lookupQ t1.pct_map card :=
        lookupQ_nonneg (hpos t1 (List.mem_cons_self t1 [])) card
      simp only [combine_tournament_data, nonZeroAvg, List.map_cons,
        List.map_nil]
      by_cases h0 : 0 < lookupQ t1.pct_map card
      · simp [List.filter, h0, qsum]
      · have hz : lookupQ t1.pct_map card = 0 := le_antisymm (not_lt.mp h0) hv
        simp [List.filter, h0, hz]
    | cons t2 rest =>
      simp only [combine_tournament_data, lookupQ]
      rw [alist_get?_map_self]
      by_cases hmem : card ∈ dedupFirst
          ((t1 :: t2 :: rest).flatMap (fun t => t.pct_map.map Prod.fst))
      · rw [if_pos hmem]
        rfl
      · have hall : ∀ t ∈ t1 :: t2 :: rest, lookupQ t.pct_map card = 0 := by
          intro t ht
          have hnm : card ∉ t.pct_map.map Prod.fst := by
            intro hc
            exact hmem (mem_dedupFirst.mpr
              (List.mem_flatMap.mpr ⟨t, ht, hc⟩))
          simp [lookupQ, alist_get?_eq_none_of_not_mem hnm]
        have hnz : (((t1 :: t2 :: rest).map
            (fun t => lookupQ t.pct_map card)).filter
            (fun v => decide (0 < v))) = [] := by
          rw [List.filter_eq_nil_iff]
          intro x hx
          obtain ⟨t, ht, rfl⟩ := List.mem_map.mp hx
          rw [hall t ht]
          simp
        rw [if_neg hmem]
        simp only [nonZeroAvg]
        rw [hnz]
        simp

/-- Witness for C2: the two-event weekend group `exC2` has only non-negative
percentages, and the merge equals the non-zero average at card `A` (15, not
the zero-diluted 10). -/
theorem C2_weekend_merge_witness :
    (∀ t ∈ exC2, ∀ p ∈ t.pct_map, 0 ≤ p.2) ∧
    (lookupQ (combine_tournament_data exC2).pct_map "A" = nonZeroAvg exC2 "A" ∧
     (group_by_weekend exC2).map (fun t => lookupQ t.pct_map "A") = [15] ∧
     (group_by_weekend exC2).map (fun t => lookupQ t.pct_map "B") = [5]) :=
  ⟨by with_unfolding_all decide,
   C2_weekend_merge exC2 (by with_unfolding_all decide) "A"⟩

/-- C3, amended.  When a current rotation family exists, the filter keeps
exactly the observations whose normalized family equals it or is null if
and only if at least 3 such observations exist — counting the null-family
(undated/unlabeled) observations toward the threshold, not only the ones
labeled with the current rotation — and otherwise returns the list
unchanged.  The original boundary reading "with exactly 2 events in the
current rotation the filter is a no-op" is wrong: 2 current-labeled events
plus 1 unlabeled one already meet the threshold (see the counterexample). -/
theorem C3_rotation_filter_amended (td : List TournamentData) (current : String)
    (h : current_rotation_family td = some current) :
    (3 ≤ (td.filter (fun d =>
        normalize_rotation_family d.format_name == some current ||
        normalize_rotation_family d.format_name == none)).length →
      filter_by_current_rotation td = td.filter (fun d =>
        normalize_rotation_family d.format_name == some current ||
        normalize_rotation_family d.format_name == none)) ∧
    ((td.filter (fun d =>
        normalize_rotation_family d.format_name == some current ||
        normalize_rotation_family d.format_name == none)).length < 3 →
      filter_by_current_rotation td = td) := by
  have hne : td.isEmpty = false := by
    cases td with
    | nil => simp [current_rotation_family] at h
    | cons d rest => rfl
  constructor
  · intro hlen
    simp only [filter_by_current_rotation, hne, Bool.false_eq_true, if_false, h]
    rw [if_pos hlen]
  · intro hlen
    simp only [filter_by_current_rotation, hne, Bool.false_eq_true, if_false, h]
    rw [if_neg (not_le.mpr hlen)]

/-- C3, counterexample.  `exC3` has exactly 2 events labeled with the current
rotation family `SV` (plus one unlabeled and one `XY` event), yet the filter
is not a no-op: the unlabeled event counts toward the threshold of 3, so the
`XY` event is dropped. -/
theorem C3_counterexample :
    exC3.countP (fun d =>
        normalize_rotation_family d.format_name == some "SV") = 2 ∧
    current_rotation_family exC3 = some "SV" ∧
    filter_by_current_rotation exC3 ≠ exC3 := by
  refine ⟨?_, ?_, ?_⟩ <;> with_unfolding_all decide

/-- Witness for C3: on `exC3` the current family is `SV`, the
current-or-null filter keeps 3 events, and the filter output is exactly
those 3 events. -/
theorem C3_rotation_filter_amended_witness :
    current_rotation_family exC3 = some "SV" ∧
    3 ≤ (exC3.filter (fun d =>
        normalize_rotation_family d.format_name == some "SV" ||
        normalize_rotation_family d.format_name == none)).length ∧
    filter_by_current_rotation exC3 = exC3.filter (fun d =>
        normalize_rotation_family d.format_name == some "SV" ||
        normalize_rotation_family d.format_name == none) :=
  ⟨by with_unfolding_all decide,
   by with_unfolding_all decide,
   (C3_rotation_filter_amended exC3 "SV" (by with_unfolding_all decide)).1
     (by with_unfolding_all decide)⟩

/-- C4, amended.  For every corpus in which some card key has
newest-to-oldest usage `[9, 2, 1.5, 1]` (so `recent_avg = 1.75` and
`latest = 9`), whose display name is not a basic energy, that is not in the
exclusion set, and whose candidate pool fits under the archetype cap and the
size limit, the Rising scorer emits that card with positive momentum — but
its reported `growth_factor` is `round(min(latest/recentAvg, 10), 1) =
round(36/7, 1) = 5.1`, which EXCEEDS 5: the `min(·, 5)` cap of the claim is
applied only to the momentum factor, never to the reported
`growth_factor`. -/
theorem C4_rising_amended (td : List TournamentData) (keys : List String)
    (arch : String → Option String) (excl : List String)
    (maxl cap : ℕ) (k : String)
    (husage : td.map (fun d => lookupQ d.pct_map k) = [9, 2, 1.5, 1])
    (hk : k ∈ keys)
    (hexcl : k ∉ excl)
    (hbasic : get_display_name k td ∉ BASIC_ENERGY)
    (hcap : ∀ a, (keys.filterMap (rise_candidate td arch excl)).countP
        (fun c => c.archetype == a) ≤ cap)
    (hlen : (keys.filterMap (rise_candidate td arch excl)).length ≤ maxl) :
    ∃ it ∈ compute_on_the_rise td keys arch excl maxl cap,
      it.uid = k ∧ 0 < it.momentum_score ∧ it.growth_factor = 51/10 ∧
        5 < it.growth_factor := by
  have hcand : rise_candidate td arch excl k
      = some { name := get_display_name k td, uid := k,
               setCode := (parse_card_uid k).1, number := (parse_card_uid k).2,
               momentum_score := 609/8, latest := 9, recent_avg := 7/4,
               delta_abs := 29/4, delta_rel := 36/7,
               archetype := orDefault (arch (get_display_name k td))
                 "UNSPECIFIED" } := by
    simp only [rise_candidate]
    rw [husage]
    rw [if_neg (not_or.mpr ⟨hexcl, hbasic⟩)]
    norm_num [MIN_RISE_CURRENT_PCT, MIN_RISE_DELTA_ABS, MIN_RISE_DELTA_REL, qsum]
  have hlen4 : td.length = 4 := by
    have h := congrArg List.length husage
    simpa using h
  have hgate : ¬(td.isEmpty = true ∨ td.length < MIN_RISE_TOURNAMENTS) := by
    intro h
    rcases h with h | h
    · rw [List.isEmpty_iff] at h
      rw [h] at hlen4
      simp at hlen4
    · rw [hlen4] at h
      exact absurd h (by decide)
  simp only [compute_on_the_rise]
  rw [if_neg hgate]
  rw [cap_loop_all (fun c => c.archetype) mkRiseItem cap maxl
    (pySorted riseLe (keys.filterMap (rise_candidate td arch excl))) [] 0
    (fun a => by
      have hp := (pySorted_perm riseLe
        (keys.filterMap (rise_candidate td arch excl))).countP_eq
        (fun c => c.archetype == a)
      simpa [getNat, alist_get?, hp] using hcap a)
    (by
      have hp := (pySorted_perm riseLe
        (keys.filterMap (rise_candidate td arch excl))).length_eq
      simpa [hp] using hlen)]
  refine ⟨_, List.mem_map_of_mem _ ((mem_pySorted riseLe).mpr
      (List.mem_filterMap.mpr ⟨k, hk, hcand⟩)), rfl, ?_, ?_, ?_⟩
  · show (0 : ℚ) < pyRound (609/8) 2
    with_unfolding_all decide
  · show pyRound (36/7) 1 = 51/10
    with_unfolding_all decide
  · show (5 : ℚ) < pyRound (36/7) 1
    with_unfolding_all decide

/-- C4, counterexample.  On the concrete Rising scenario corpus the scorer
reports `growth_factor = 5.1 > 5`: the claimed cap at 5 does not hold for
the reported field. -/
theorem C4_counterexample :
    (compute_on_the_rise corpusC4 (all_card_keys corpusC4) archNone [] 18 2).map
        (fun it => it.growth_factor) = [51/10] ∧
    ¬ (∀ it ∈ compute_on_the_rise corpusC4 (all_card_keys corpusC4) archNone [] 18 2,
        it.growth_factor ≤ 5) := by
  constructor
  · with_unfolding_all decide
  · with_unfolding_all decide

/-- Witness for C4: the scenario corpus `corpusC4` with the single key
`RiseK` satisfies every hypothesis, and the scorer emits `RiseK` with
positive momentum and growth factor `5.1`. -/
theorem C4_rising_amended_witness :
    (corpusC4.map (fun d => lookupQ d.pct_map "RiseK") = [9, 2, 1.5, 1]) ∧
    (∃ it ∈ compute_on_the_rise corpusC4 ["RiseK"] archNone [] 18 2,
      it.uid = "RiseK" ∧ 0 < it.momentum_score ∧ it.growth_factor = 51/10 ∧
        5 < it.growth_factor) :=
  ⟨by with_unfolding_all decide,
   C4_rising_amended corpusC4 ["RiseK"] archNone [] 18 2 "RiseK"
     (by with_unfolding_all decide)
     (by with_unfolding_all decide)
     (by with_unfolding_all decide)
     (by with_unfolding_all decide)
     (fun a => le_trans (List.countP_le_length _) (by with_unfolding_all decide))
     (by with_unfolding_all decide)⟩

theorem rwPow_bounds (d : Int) : 0 ≤ rwPow d ∧ rwPow d ≤ 1 := by
  constructor
  · exact pow_nonneg (by norm_num) _
  · exact pow_le_one₀ (by norm_num) (by norm_num)

/-- C5: Crash detection scenario.  For every corpus in which some card key
has newest-to-oldest usage `[0, 1, 18, 20, 22]` (a peak sustained near 20
across the 3 older events, now at 0), whose display name is not a basic
energy, that is not excluded, under any recency-weight function valued in
`[0, 1]` (the higher-scoring peak at index 2 then dominates the index-3
peak at every such weighting), and whose candidate pool fits under the
archetype cap and size limit, the Crashed scorer reports the card with
`drop_amount = 20`, `current_usage = 0`, `peak_usage = 20` and a
3-tournament sustained peak. -/
theorem C5_crash_detection (td : List TournamentData) (keys : List String)
    (arch : String → Option String) (excl : List String) (now : Int)
    (rw : Int → ℚ) (maxl cap : ℕ) (k : String)
    (hrw : ∀ d, 0 ≤ rw d ∧ rw d ≤ 1)
    (husage : td.map (fun d => lookupQ d.pct_map k) = [0, 1, 18, 20, 22])
    (hk : k ∈ keys) (hexcl : k ∉ excl)
    (hbasic : get_display_name k td ∉ BASIC_ENERGY)
    (hcap : ∀ a, (keys.filterMap (chopped_candidate td arch excl now rw)).countP
        (fun c => c.archetype == a) ≤ cap)
    (hlen : (keys.filterMap (chopped_candidate td arch excl now rw)).length ≤ maxl) :
    ∃ it ∈ compute_chopped_and_washed td keys arch excl now rw maxl cap,
      it.uid = k ∧ it.drop_amount = 20 ∧ it.current_usage = 0 ∧
        it.peak_usage = 20 ∧ it.sustained_peak = 3 := by
  obtain ⟨t0, t1, t2, t3, t4, rfl⟩ :
      ∃ t0 t1 t2 t3 t4, td = [t0, t1, t2, t3, t4] := by
    cases td with
    | nil => simp at husage
    | cons a0 l0 =>
      cases l0 with
      | nil => simp at husage
      | cons a1 l1 =>
        cases l1 with
        | nil => simp at husage
        | cons a2 l2 =>
          cases l2 with
          | nil => simp at husage
          | cons a3 l3 =>
            cases l3 with
            | nil => simp at husage
            | cons a4 l4 =>
              cases l4 with
              | nil => exact ⟨a0, a1, a2, a3, a4, rfl⟩
              | cons a5 l5 => simp at husage
  simp only [List.map_cons, List.map_nil, List.cons.injEq, and_true] at husage
  obtain ⟨h0, h1, h2, h3, h4⟩ := husage
  have hcand : ∃ c, chopped_candidate [t0, t1, t2, t3, t4] arch excl now rw k
      = some c ∧ c.key = k ∧ c.latest = 0 ∧
      c.info = { peak_pct := 20, peak_tournaments := 3, abs_drop := 20,
                 rel_drop := 1, steepness := 10 } := by
    have hp : peak_idxs 5 = [1, 2, 3, 4] := by decide
    have hsi2 : sustain_idxs 5 2 = [3, 4] := by decide
    have hsi3 : sustain_idxs 5 3 = [4] := by decide
    have hsi4 : sustain_idxs 5 4 = [] := by decide
    simp only [chopped_candidate]
    rw [if_neg (not_or.mpr ⟨hexcl, hbasic⟩)]
    simp only [pctAt, dateAt, List.get?_cons_succ, List.get?_cons_zero,
      Option.getD_some, List.length_cons, List.length_nil, h0, h1, h2, h3, h4]
    norm_num [hp, hsi2, hsi3, hsi4, List.foldl_cons, List.foldl_nil,
      chopped_step, chopped_step_core, pctAt, dateAt, List.get?_cons_succ,
      List.get?_cons_zero, Option.getD_some, h0, h1, h2, h3, h4, qsum,
      MIN_CHOPPED_PEAK_PCT, MIN_CHOPPED_DROP_ABS, MIN_CHOPPED_DROP_REL,
      MIN_SUSTAINED_PEAK_TOURNAMENTS, MAX_CHOPPED_RECENT_PCT]
    cases hd2 : t2.date with
    | none =>
      cases hd3 : t3.date with
      | none =>
        obtain ⟨ha1, ha2⟩ := hrw 14
        obtain ⟨hb1, hb2⟩ := hrw 21
        rw [if_pos (show (0:ℚ) < 96 + rw 14 * 5 by linarith)]
        norm_num
        rw [if_neg (show ¬(96 + rw 14 * 5 < 88 + rw 21 * 5) by linarith)]
        norm_num
        exact ⟨_, ⟨by linarith, rfl⟩, rfl, rfl, rfl⟩
      | some pd3 =>
        obtain ⟨ha1, ha2⟩ := hrw 14
        obtain ⟨hb1, hb2⟩ := hrw (now - pd3)
        rw [if_pos (show (0:ℚ) < 96 + rw 14 * 5 by linarith)]
        norm_num
        rw [if_neg (show ¬(96 + rw 14 * 5 < 88 + rw (now - pd3) * 5) by linarith)]
        norm_num
        exact ⟨_, ⟨by linarith, rfl⟩, rfl, rfl, rfl⟩
    | some pd2 =>
      cases hd3 : t3.date with
      | none =>
        obtain ⟨ha1, ha2⟩ := hrw (now - pd2)
        obtain ⟨hb1, hb2⟩ := hrw 21
        rw [if_pos (show (0:ℚ) < 96 + rw (now - pd2) * 5 by linarith)]
        norm_num
        rw [if_neg (show ¬(96 + rw (now - pd2) * 5 < 88 + rw 21 * 5) by linarith)]
        norm_num
        exact ⟨_, ⟨by linarith, rfl⟩, rfl, rfl, rfl⟩
      | some pd3 =>
        obtain ⟨ha1, ha2⟩ := hrw (now - pd2)
        obtain ⟨hb1, hb2⟩ := hrw (now - pd3)
        rw [if_pos (show (0:ℚ) < 96 + rw (now - pd2) * 5 by linarith)]
        norm_num
        rw [if_neg (show ¬(96 + rw (now - pd2) * 5 < 88 + rw (now - pd3) * 5)
          by linarith)]
        norm_num
        exact ⟨_, ⟨by linarith, rfl⟩, rfl, rfl, rfl⟩
  obtain ⟨c, hcand, hkey, hlat, hinfo⟩ := hcand
  simp only [compute_chopped_and_washed, List.isEmpty_cons, Bool.false_eq_true,
    if_false]
  rw [cap_loop_all (fun c => c.archetype) mkChoppedItem cap maxl
    (pySorted choppedLe
      (keys.filterMap (chopped_candidate [t0, t1, t2, t3, t4] arch excl now rw)))
    [] 0
    (fun a => by
      have hpm := (pySorted_perm choppedLe
        (keys.filterMap
          (chopped_candidate [t0, t1, t2, t3, t4] arch excl now rw))).countP_eq
        (fun c => c.archetype == a)
      simpa [getNat, alist_get?, hpm] using hcap a)
    (by
      have hpm := (pySorted_perm choppedLe
        (keys.filterMap
          (chopped_candidate [t0, t1, t2, t3, t4] arch excl now rw))).length_eq
      simpa [hpm] using hlen)]
  refine ⟨mkChoppedItem c, List.mem_map_of_mem _ ((mem_pySorted choppedLe).mpr
    (List.mem_filterMap.mpr ⟨k, hk, hcand⟩)), hkey, ?_, ?_, ?_, ?_⟩
  · show pyRound c.info.abs_drop 1 = 20
    rw [hinfo]
    with_unfolding_all decide
  · show pyRound c.latest 1 = 0
    rw [hlat]
    with_unfolding_all decide
  · show pyRound c.info.peak_pct 1 = 20
    rw [hinfo]
    with_unfolding_all decide
  · show c.info.peak_tournaments = 3
    rw [hinfo]

/-- Witness for C5: the concrete corpus `corpusC5` (usage `[0, 1, 18, 20,
22]` for `CrashK`) with the exact recency weight `rwPow` puts `CrashK` in
the Crashed list with drop 20 from a 3-event sustained peak of 20 down to
0. -/
theorem C5_crash_detection_witness :
    (corpusC5.map (fun d => lookupQ d.pct_map "CrashK") = [0, 1, 18, 20, 22]) ∧
    (∃ it ∈ compute_chopped_and_washed corpusC5 ["CrashK"] archNone [] 0 rwPow 18 2,
      it.uid = "CrashK" ∧ it.drop_amount = 20 ∧ it.current_usage = 0 ∧
        it.peak_usage = 20 ∧ it.sustained_peak = 3) :=
  ⟨by with_unfolding_all decide,
   C5_crash_detection corpusC5 ["CrashK"] archNone [] 0 rwPow 18 2 "CrashK"
     rwPow_bounds
     (by with_unfolding_all decide)
     (by with_unfolding_all decide)
     (by with_unfolding_all decide)
     (by with_unfolding_all decide)
     (fun a => le_trans (List.countP_le_length _) (by with_unfolding_all decide))
     (by with_unfolding_all decide)⟩

/-- C7, amended.  Within one run the engine is a pure function of its inputs
once the clock reading is fixed: the Leaders and Rising lists do not depend
on the clock at all (they are syntactically independent of `now` and of the
recency-weight function), and two runs that read the same clock value agree
on everything.  The unqualified idempotence claim is wrong, though: the
Crashed scorer feeds `datetime.now()` into every crash score, so two runs
over byte-identical inputs at different times can order the Crashed
category differently (see the counterexample). -/
theorem C7_idempotence_amended (raw : List TournamentData)
    (arch : String → Option String) (nowA nowB : Int) (rwA rwB : Int → ℚ)
    (ps : ℕ) (sel : Option (List String)) :
    (generate_suggestions raw arch nowA rwA ps sel).leaders
      = (generate_suggestions raw arch nowB rwB ps sel).leaders ∧
    (generate_suggestions raw arch nowA rwA ps sel).on_the_rise
      = (generate_suggestions raw arch nowB rwB ps sel).on_the_rise ∧
    (nowA = nowB → rwA = rwB →
      generate_suggestions raw arch nowA rwA ps sel
        = generate_suggestions raw arch nowB rwB ps sel) := by
  refine ⟨rfl, rfl, fun h1 h2 => ?_⟩
  rw [h1, h2]

/-- C7, counterexample.  On the six dated observations of `rawC7`, two runs
over identical on-disk inputs whose clock readings differ by 120 days order
the Crashed category differently (`Xcard` crashed recently, `Ycard` long
ago: the recency term decays with the clock), so the `categories` arrays are
not byte-identical up to `generatedAt`. -/
theorem C7_counterexample :
    (generate_suggestions rawC7 archNone 121 rwPow 60 none).chopped
      ≠ (generate_suggestions rawC7 archNone 241 rwPow 60 none).chopped := by
  with_unfolding_all decide

/-- Witness for C7: concrete instantiation of the amended theorem at the
two clock readings of the counterexample. -/
theorem C7_idempotence_amended_witness :
    ((generate_suggestions rawC7 archNone 121 rwPow 60 none).leaders
      = (generate_suggestions rawC7 archNone 241 rwPow 60 none).leaders ∧
    (generate_suggestions rawC7 archNone 121 rwPow 60 none).on_the_rise
      = (generate_suggestions rawC7 archNone 241 rwPow 60 none).on_the_rise ∧
    ((121 : Int) = 241 → rwPow = rwPow →
      generate_suggestions rawC7 archNone 121 rwPow 60 none
        = generate_suggestions rawC7 archNone 241 rwPow 60 none)) :=
  C7_idempotence_amended rawC7 archNone 121 241 rwPow rwPow 60 none

theorem upsert_keys {β : Type} (k : String) (v : β) :
    ∀ (m : List (String × β)),
      (upsert m k v).map Prod.fst
        = if k ∈ m.map Prod.fst then m.map Prod.fst
          else m.map Prod.fst ++ [k]
  | [] => by simp [upsert]
  | p :: rest => by
    simp only [upsert, List.map_cons]
    by_cases h : p.1 = k
    · subst h
      simp
    · have hb : (p.1 == k) = false := beq_eq_false_iff_ne.mpr h
      simp only [hb, Bool.false_eq_true, if_false, List.map_cons,
        upsert_keys k v rest]
      by_cases hmem : k ∈ rest.map Prod.fst
      · simp [hmem, List.mem_cons, Ne.symm h]
      · simp [hmem, List.mem_cons, Ne.symm h]

theorem nodup_upsert_keys {β : Type} {m : List (String × β)}
    (h : (m.map Prod.fst).Nodup) (k : String) (v : β) :
    ((upsert m k v).map Prod.fst).Nodup := by
  rw [upsert_keys]
  split
  · exact h
  · rename_i hmem
    rw [List.nodup_append]
    exact ⟨h, List.nodup_singleton _,
      fun x hx hx2 => hmem ((List.mem_singleton.mp hx2) ▸ hx)⟩

theorem qsum_append_single (xs : List ℚ) (p : ℚ) :
    qsum (xs ++ [p]) = qsum xs + p := by
  simp [qsum, List.foldl_append]

theorem min_clamp_add (S p : ℚ) (hp : 0 ≤ p) :
    min 100 (min 100 S + p) = min 100 (S + p) := by
  rcases le_total S 100 with h | h
  · rw [min_eq_right h]
  · rw [min_eq_left h, min_eq_left (by linarith : (100:ℚ) ≤ 100 + p),
      min_eq_left (by linarith : (100:ℚ) ≤ S + p)]

theorem extract_pct_map_append (c? : Option CardCanonicalizer)
    (l : List MasterItem) (it : MasterItem) :
    (extract_pct_map c? (l ++ [it])).1
      = match canonKeyOf c? it with
        | none => (extract_pct_map c? l).1
        | some ck => upsert (extract_pct_map c? l).1 ck
            (min 100 (lookupQ (extract_pct_map c? l).1 ck + it.pct)) := by
  cases hck : canonKeyOf c? it with
  | none =>
    simp [extract_pct_map, List.foldl_append, hck]
  | some ck =>
    simp [extract_pct_map, List.foldl_append, hck]

/-- C8: Canonicalization merge within an event.  For every per-event item
list whose percentages are all non-negative, the extracted percentage map
has pairwise distinct canonical keys, and reading it at any key yields
`min(100, sum of the pct values of the raw items canonicalizing to that
key)` — entries exist exactly for keys some item canonicalizes to. -/
theorem C8_canonical_merge (c? : Option CardCanonicalizer) :
    ∀ (items : List MasterItem), (∀ it2 ∈ items, 0 ≤ it2.pct) →
      (((extract_pct_map c? items).1.map Prod.fst).Nodup ∧
       ∀ k, alist_get? (extract_pct_map c? items).1 k
         = if items.filter (fun it2 => canonKeyOf c? it2 == some k) = []
           then none
           else some (min 100 (qsum ((items.filter
             (fun it2 => canonKeyOf c? it2 == some k)).map
               (fun it2 => it2.pct))))) := by
  intro items
  induction items using List.reverseRecOn with
  | nil =>
    intro _
    constructor
    · simp [extract_pct_map]
    · intro k
      simp [extract_pct_map, alist_get?]
  | append_singleton l it ih =>
    intro hpos
    obtain ⟨ihn, ihg⟩ := ih (fun it2 h2 => hpos it2 (List.mem_append_left _ h2))
    have hp : 0 ≤ it.pct :=
      hpos it (List.mem_append_right _ (List.mem_cons_self it []))
    cases hck : canonKeyOf c? it with
    | none =>
      constructor
      · simp only [extract_pct_map_append, hck]
        exact ihn
      · intro k
        have hf : (l ++ [it]).filter (fun it2 => canonKeyOf c? it2 == some k)
            = l.filter (fun it2 => canonKeyOf c? it2 == some k) := by
          simp [List.filter_append, hck]
        simp only [extract_pct_map_append, hck, hf]
        exact ihg k
    | some ck =>
      constructor
      · simp only [extract_pct_map_append, hck]
        exact nodup_upsert_keys ihn ck _
      · intro k
        simp only [extract_pct_map_append, hck]
        by_cases hkc : k = ck
        · subst hkc
          have hf : (l ++ [it]).filter (fun it2 => canonKeyOf c? it2 == some k)
              = l.filter (fun it2 => canonKeyOf c? it2 == some k) ++ [it] := by
            simp [List.filter_append, hck]
          rw [alist_get?_upsert_self, hf, if_neg (by simp)]
          simp only [lookupQ, ihg k]
          by_cases hemp : l.filter (fun it2 => canonKeyOf c? it2 == some k) = []
          · rw [if_pos hemp, hemp]
            simp [qsum]
          · rw [if_neg hemp]
            simp only [Option.getD_some, List.map_append, List.map_cons,
              List.map_nil, qsum_append_single]
            rw [min_clamp_add _ _ hp]
        · have hf : (l ++ [it]).filter (fun it2 => canonKeyOf c? it2 == some k)
              = l.filter (fun it2 => canonKeyOf c? it2 == some k) := by
            simp [List.filter_append, hck, hkc, Ne.symm hkc]
          rw [alist_get?_upsert_other _ _ _ _ (Ne.symm hkc), hf]
          exact ihg k

/-- Witness for C8: on the synonym table `canonC8` and the three-item report
`itemsC8` (two 60% prints of one card, one 5% card), the map has distinct
keys and reads `A::S::1 = min(100, 120) = 100` and `B = 5`. -/
theorem C8_canonical_merge_witness :
    (∀ it2 ∈ itemsC8, 0 ≤ it2.pct) ∧
    ((extract_pct_map (some canonC8) itemsC8).1.map Prod.fst).Nodup ∧
    alist_get? (extract_pct_map (some canonC8) itemsC8).1 "A::S::1" = some 100 ∧
    alist_get? (extract_pct_map (some canonC8) itemsC8).1 "B" = some 5 :=
  ⟨by with_unfolding_all decide,
   (C8_canonical_merge (some canonC8) itemsC8 (by with_unfolding_all decide)).1,
   ((C8_canonical_merge (some canonC8) itemsC8
       (by with_unfolding_all decide)).2 "A::S::1").trans
     (by with_unfolding_all decide),
   ((C8_canonical_merge (some canonC8) itemsC8
       (by with_unfolding_all decide)).2 "B").trans
     (by with_unfolding_all decide)⟩

theorem enumFrom_fst_lt {α : Type} :
    ∀ {l : List α} {n : ℕ} {p : ℕ × α}, p ∈ l.enumFrom n → p.1 < n + l.length
  | a :: l, n, p, h => by
    rw [List.enumFrom_cons] at h
    rcases List.mem_cons.mp h with rfl | h
    · simp
    · have := enumFrom_fst_lt h
      simp only [List.length_cons]
      omega

theorem enum_fst_lt {α : Type} {l : List α} {p : ℕ × α}
    (h : p ∈ l.enum) : p.1 < l.length := by
  have := enumFrom_fst_lt (by simpa [List.enum] using h)
  simpa using this

theorem leader_stat_for_checked_eq (td : List TournamentData)
    (rankings : List (List (String × ℕ)))
    (p1 p2 p3 : ℚ) (key : String)
    (hlen : td.length ≤ rankings.length) :
    leader_stat_for_checked td rankings p1 p2 p3 key
      = some (leader_stat_for td rankings p1 p2 p3 key) := by
  simp only [leader_stat_for_checked, leader_stat_for]
  by_cases hb : get_display_name key td ∈ BASIC_ENERGY
  · simp [hb]
  · simp only [hb, if_false]
    rw [optionMapM_eq_map (f := rank_read rankings key)]
    · simp only []
      split_ifs <;> rfl
    · intro id hid
      have hlt : id.1 < rankings.length :=
        lt_of_lt_of_le (enum_fst_lt hid) hlen
      cases hr : rankings.get? id.1 with
      | none =>
        exact absurd (List.get?_eq_none.mp hr) (by omega)
      | some r =>
        simp only [List.get?_eq_getElem?] at hr
        cases ha : alist_get? r key with
        | none => simp [rank_read, hr, ha]
        | some rv => simp [rank_read, hr, ha]

theorem compute_consistent_leaders_checked_eq (td : List TournamentData)
    (keys : List String) (ml : ℕ) (p1 p2 p3 : ℚ) :
    compute_consistent_leaders_checked td keys ml p1 p2 p3
      = some (compute_consistent_leaders td keys ml p1 p2 p3) := by
  simp only [compute_consistent_leaders_checked, compute_consistent_leaders]
  by_cases he : td.isEmpty = true
  · simp [he]
  · simp only [he, Bool.false_eq_true, if_false]
    rw [optionMapM_eq_map
      (f := leader_stat_for td (td.map tournament_ranking) p1 p2 p3)]
    · simp only []
      rw [List.filterMap_map]
      simp [Function.id_comp]
    · intro k hk
      exact leader_stat_for_checked_eq td _ p1 p2 p3 k (by simp)

set_option maxHeartbeats 1600000 in
theorem rise_candidate_checked_eq (td : List TournamentData)
    (arch : String → Option String) (excl : List String) (key : String)
    (hne : td ≠ []) :
    rise_candidate_checked td arch excl key
      = some (rise_candidate td arch excl key) := by
  obtain ⟨v, vs, hv⟩ : ∃ v vs, td.map (fun d => lookupQ d.pct_map key) = v :: vs := by
    cases htd : td.map (fun d => lookupQ d.pct_map key) with
    | nil => exact absurd (List.map_eq_nil_iff.mp htd) hne
    | cons a l => exact ⟨a, l, rfl⟩
  simp only [rise_candidate_checked, rise_candidate, hv, List.get?_cons_zero,
    List.headD_cons, List.tail_cons]
  by_cases hb : key ∈ excl ∨ get_display_name key td ∈ BASIC_ENERGY
  · simp [hb]
  · simp only [hb, if_false]
    by_cases h1 : v < MIN_RISE_CURRENT_PCT
    · simp [h1]
    · simp only [h1, if_false]
      by_cases h2 : ¬vs.isEmpty = true ∧ vs.all (fun v2 => decide (v2 ≤ 0)) = true
      · simp [h2]
      · simp only [h2, if_false]
        by_cases h3 : vs.length < 2
        · simp [h3]
        · simp only [h3, if_false]
          obtain ⟨w1, w2, vs2, hw⟩ : ∃ w1 w2 vs2, vs = w1 :: w2 :: vs2 := by
            cases vs with
            | nil => simp at h3
            | cons a l =>
              cases l with
              | nil => simp at h3
              | cons b l2 => exact ⟨a, b, l2, rfl⟩
          subst hw
          rw [if_pos (show 2 ≤ (w1 :: w2 :: vs2).length from by simp)]
          simp only [List.take_succ_cons, List.take_zero, List.get?_cons_zero,
            List.get?_cons_succ, List.headD_cons, Option.getD_some,
            show 2 ≤ ([w1, w2] : List ℚ).length from by simp, true_and,
            if_true]
          split_ifs <;> rfl

theorem compute_on_the_rise_checked_eq (td : List TournamentData)
    (keys : List String) (arch : String → Option String) (excl : List String)
    (ml cap : ℕ) :
    compute_on_the_rise_checked td keys arch excl ml cap
      = some (compute_on_the_rise td keys arch excl ml cap) := by
  simp only [compute_on_the_rise_checked, compute_on_the_rise]
  by_cases hg : td.isEmpty = true ∨ td.length < MIN_RISE_TOURNAMENTS
  · have hg2 : td = [] ∨ td.length < MIN_RISE_TOURNAMENTS := by
      rcases hg with h | h
      · exact Or.inl (List.isEmpty_iff.mp h)
      · exact Or.inr h
    simp [hg, hg2]
  · simp only [hg, if_false]
    have hne : td ≠ [] := by
      intro he
      exact hg (Or.inl (by simp [he]))
    rw [optionMapM_eq_map (f := rise_candidate td arch excl)]
    · simp only []
      rw [List.filterMap_map]
      simp [Function.id_comp]
    · intro k hk
      exact rise_candidate_checked_eq td arch excl k hne

theorem mem_peak_idxs_lt {len idx : ℕ} (h : idx ∈ peak_idxs len) : idx < len := by
  simp only [peak_idxs] at h
  have h2 := List.mem_range.mp (List.drop_subset _ _ h)
  omega

theorem mem_sustain_idxs_lt {len psi i : ℕ} (h : i ∈ sustain_idxs len psi) :
    i < len := by
  simp only [sustain_idxs] at h
  have h2 := List.mem_range.mp (List.drop_subset _ _ h)
  omega

theorem chopped_step_checked_eq (td : List TournamentData) (now : Int)
    (rw : Int → ℚ) (key : String) (latest : ℚ) (acc : ℚ × Option PeakInfo)
    (idx : ℕ) (hlt : idx < td.length) :
    chopped_step_checked td now rw key latest acc idx
      = some (chopped_step td now rw key latest acc idx) := by
  cases ho : td.get? idx with
  | none => exact absurd (List.get?_eq_none.mp ho) (by omega)
  | some obs =>
    simp only [chopped_step_checked, ho]
    rw [optionMapM_eq_map (f := fun i => pctAt td i key)]
    · simp only [chopped_step, pctAt, dateAt, ho, Option.getD_some]
    · intro i hi
      have hi2 : i < td.length := mem_sustain_idxs_lt hi
      cases hoi : td.get? i with
      | none => exact absurd (List.get?_eq_none.mp hoi) (by omega)
      | some o2 =>
        simp only [List.get?_eq_getElem?] at hoi
        simp [pctAt, hoi]

set_option maxHeartbeats 1600000 in
theorem chopped_candidate_checked_eq (td : List TournamentData)
    (arch : String → Option String) (excl : List String) (now : Int)
    (rw : Int → ℚ) (key : String) (hne : td ≠ []) :
    chopped_candidate_checked td arch excl now rw key
      = some (chopped_candidate td arch excl now rw key) := by
  cases td with
  | nil => exact absurd rfl hne
  | cons t0 ts =>
    simp only [chopped_candidate_checked, chopped_candidate, List.get?_cons_zero]
    by_cases hb : key ∈ excl ∨ get_display_name key (t0 :: ts) ∈ BASIC_ENERGY
    · simp [hb]
    · simp only [hb, if_false]
      by_cases h1 : 1 < (t0 :: ts).length
      · obtain ⟨t1, ts2, rfl⟩ : ∃ t1 ts2, ts = t1 :: ts2 := by
          cases ts with
          | nil => simp at h1
          | cons a l => exact ⟨a, l, rfl⟩
        simp only [h1, if_true, pctAt, List.get?_cons_succ, List.get?_cons_zero,
          Option.getD_some, Option.map_some']
        rw [optionFoldlM_eq_foldl
          (f := chopped_step (t0 :: t1 :: ts2) now rw key (lookupQ t0.pct_map key))]
        · simp only []
          split_ifs <;> rfl
        · intro s2 a ha
          exact chopped_step_checked_eq _ now rw key _ s2 a (mem_peak_idxs_lt ha)
      · simp only [h1, if_false]
        simp only [pctAt, List.get?_cons_zero, Option.getD_some]
        rw [optionFoldlM_eq_foldl
          (f := chopped_step (t0 :: ts) now rw key (lookupQ t0.pct_map key))]
        · simp only []
          split_ifs <;> rfl
        · intro s2 a ha
          exact chopped_step_checked_eq _ now rw key _ s2 a (mem_peak_idxs_lt ha)

theorem compute_chopped_checked_eq (td : List TournamentData)
    (keys : List String) (arch : String → Option String) (excl : List String)
    (now : Int) (rw : Int → ℚ) (ml cap : ℕ) :
    compute_chopped_and_washed_checked td keys arch excl now rw ml cap
      = some (compute_chopped_and_washed td keys arch excl now rw ml cap) := by
  simp only [compute_chopped_and_washed_checked, compute_chopped_and_washed]
  by_cases he : td.isEmpty = true
  · simp [he, List.isEmpty_iff.mp he]
  · simp only [he, Bool.false_eq_true, if_false]
    have hne : td ≠ [] := fun h => he (by simp [h])
    rw [optionMapM_eq_map (f := chopped_candidate td arch excl now rw)]
    · simp only []
      rw [List.filterMap_map]
      simp [Function.id_comp]
    · intro k hk
      exact chopped_candidate_checked_eq td arch excl now rw k hne

set_option maxHeartbeats 1600000 in
theorem day2d_candidate_checked_eq (extended : List TournamentData)
    (arch : String → Option String) (excl : List String) (key : String)
    (hne : extended ≠ []) :
    day2d_candidate_checked extended arch excl key
      = some (day2d_candidate extended arch excl key) := by
  cases extended with
  | nil => exact absurd rfl hne
  | cons e0 es =>
    simp only [day2d_candidate_checked, day2d_candidate, day2d_candidate_gen,
      List.map_cons, maxQ]
    by_cases hb : key ∈ excl ∨ get_display_name key (e0 :: es) ∈ BASIC_ENERGY
    · simp [hb]
    · simp only [hb, if_false]
      rw [pyIndex?_eq
        (p := fun u => u == (List.map (fun d => lookupQ d.pct_map key) es).foldl
          max (lookupQ e0.pct_map key))
        ⟨(List.map (fun d => lookupQ d.pct_map key) es).foldl max
          (lookupQ e0.pct_map key),
        foldl_max_mem _ _, beq_self_eq_true _⟩]
      simp only [eq_self_iff_true, true_and]
      split_ifs <;> rfl

theorem compute_day2d_checked_eq (ext : List TournamentData)
    (keys : List String) (arch : String → Option String) (excl : List String)
    (ml cap : ℕ) :
    compute_that_day2d_checked ext keys arch excl ml cap
      = some (compute_that_day2d ext keys arch excl ml cap) := by
  simp only [compute_that_day2d_checked, compute_that_day2d]
  by_cases he : ext.isEmpty = true
  · simp [he, List.isEmpty_iff.mp he]
  · simp only [he, Bool.false_eq_true, if_false]
    have hne : ext ≠ [] := fun h => he (by simp [h])
    rw [optionMapM_eq_map (f := day2d_candidate ext arch excl)]
    · simp only []
      rw [List.filterMap_map]
      simp [Function.id_comp]
    · intro k hk
      exact day2d_candidate_checked_eq ext arch excl k hne

/-- C9: No scorer throws on an empty or tiny corpus.  Each of the four
checked scorers — in which every Python subscript, `max` over a possibly
empty list and `list.index` is made partial, `none` modeling the exception
escaping — returns `some` of its total counterpart on every input, so no
`IndexError`/`ValueError` is reachable; and the Rising scorer returns the
empty list outright when fewer than `MIN_RISE_TOURNAMENTS = 3` observations
exist. -/
theorem C9_no_scorer_throws (td : List TournamentData) (keys : List String)
    (arch : String → Option String) (excl : List String) (now : Int)
    (rw : Int → ℚ) (ml cap : ℕ) (p1 p2 p3 : ℚ) :
    compute_consistent_leaders_checked td keys ml p1 p2 p3
      = some (compute_consistent_leaders td keys ml p1 p2 p3) ∧
    compute_on_the_rise_checked td keys arch excl ml cap
      = some (compute_on_the_rise td keys arch excl ml cap) ∧
    compute_chopped_and_washed_checked td keys arch excl now rw ml cap
      = some (compute_chopped_and_washed td keys arch excl now rw ml cap) ∧
    compute_that_day2d_checked td keys arch excl ml cap
      = some (compute_that_day2d td keys arch excl ml cap) ∧
    (td.length < MIN_RISE_TOURNAMENTS →
      compute_on_the_rise td keys arch excl ml cap = []) :=
  ⟨compute_consistent_leaders_checked_eq td keys ml p1 p2 p3,
   compute_on_the_rise_checked_eq td keys arch excl ml cap,
   compute_chopped_checked_eq td keys arch excl now rw ml cap,
   compute_day2d_checked_eq td keys arch excl ml cap,
   fun h => by simp [compute_on_the_rise, h]⟩

/-- Witness for C9: a one-observation corpus is below the Rising threshold,
Rising returns the empty list, and the checked Crashed scorer agrees with
the total one on it. -/
theorem C9_no_scorer_throws_witness :
    ([obsC4 9].length < MIN_RISE_TOURNAMENTS) ∧
    compute_on_the_rise [obsC4 9] ["RiseK"] archNone [] 18 2 = [] ∧
    compute_chopped_and_washed_checked [obsC4 9] ["RiseK"] archNone [] 0 rwPow 18 2
      = some (compute_chopped_and_washed [obsC4 9] ["RiseK"] archNone [] 0 rwPow 18 2) :=
  ⟨by decide,
   (C9_no_scorer_throws [obsC4 9] ["RiseK"] archNone [] 0 rwPow 18 2 0 0 0).2.2.2.2
     (by decide),
   (C9_no_scorer_throws [obsC4 9] ["RiseK"] archNone [] 0 rwPow 18 2 0 0 0).2.2.1⟩

theorem ite_else_congr {α : Type} {c : Prop} [Decidable c] (a : α) {x y : α}
    (h : ¬c → x = y) : (if c then a else x) = (if c then a else y) := by
  by_cases hc : c
  · simp [hc]
  · simp [hc, h hc]

theorem day2d_candidate_gen_eq (extended : List TournamentData)
    (arch : String → Option String) (excl : List String) (key : String) :
    day2d_candidate_gen true extended arch excl key
      = day2d_candidate_gen false extended arch excl key := by
  simp only [day2d_candidate_gen]
  refine ite_else_congr _ (fun h1 => ?_)
  refine ite_else_congr _ (fun h2 => ?_)
  refine ite_else_congr _ (fun h3 => ?_)
  refine ite_else_congr _ (fun h4 => ?_)
  refine ite_else_congr _ (fun h5 => ?_)
  refine ite_else_congr _ (fun h6 => ?_)
  refine ite_else_congr _ (fun h7 => ?_)
  refine ite_else_congr _ (fun h8 => ?_)
  have hnz : ¬(True ∧ 4 < (extended.map
      (fun d => lookupQ d.pct_map key)).countP (fun u => decide (0 < u))) := by
    rintro ⟨_, hgt⟩
    rw [List.countP_eq_length_filter] at hgt
    rw [show MAX_DAY2D_TOTAL_APPEARANCES = 2 from rfl] at h4
    omega
  rw [if_neg hnz]
  rfl

/-- C10: the `non_zero_count > 4` persistence gate of the One-Offs scorer is
redundant.  `non_zero_count` counts exactly the observations with positive
usage, the same quantity whose filter-length already passed the
`total_appearances ≤ MAX_DAY2D_TOTAL_APPEARANCES = 2` gate, so it can never
exceed 4 there: the scorer with the gate removed is extensionally equal to
the original on every input. -/
theorem C10_persistence_gate_redundant (ext : List TournamentData)
    (keys : List String) (arch : String → Option String) (excl : List String)
    (ml cap : ℕ) :
    compute_that_day2d ext keys arch excl ml cap
      = compute_that_day2d_without_persistence_gate ext keys arch excl ml cap := by
  simp only [compute_that_day2d, compute_that_day2d_without_persistence_gate]
  rw [show keys.filterMap (day2d_candidate ext arch excl)
      = keys.filterMap (day2d_candidate_gen false ext arch excl)
    from filterMap_congr_mem (fun k hk => day2d_candidate_gen_eq ext arch excl k)]
